import Mathlib

/- Verification development for the MESSy coupler core
   (src/t8_messy/t8_messy_coupler.cxx).

   Modelling conventions:
   * C `double` values are modelled as exact rationals; rounding is not
     modelled.  A division whose divisor is 0 produces a non-finite double
     (NaN or an infinity); such results are modelled by `none` in
     `Option ℚ`.  Numeric literals are taken at their decimal value.
   * C arrays of doubles are modelled as total functions `ℕ → ℚ`
     (respectively `ℕ → Option ℚ` for the adapt buffers, which can receive
     non-finite values); an assignment `a[i] = v` is `upd a i v`, and
     `memcpy` is `copyRange`.
   * Loops whose body is effect-free until an early `return` are modelled
     with `List.all`.
   * The forest library (`t8_forest_*`) is not part of this repository and
     is treated as a black box; where a claim depends on the adapt loop,
     the forest operations are abstracted as function parameters.
-/

/-- Pointwise array update: `a[i] = v`. -/
def upd {α : Type} (f : ℕ → α) (i : ℕ) (v : α) : ℕ → α :=
  fun j => if j = i then v else f j

/-- memcpy of `len` doubles from offset `si` of `src` to offset `di` of `dst`. -/
def copyRange (dst : ℕ → Option ℚ) (di : ℕ) (src : ℕ → ℚ) (si len : ℕ) :
    ℕ → Option ℚ :=
  fun o => if di ≤ o ∧ o < di + len then some (src (si + (o - di))) else dst o

/-- LONG_MIN converted to double (exactly representable). -/
def longMinD : ℚ := -(2 ^ 63)

/-- LONG_MAX converted to double (rounds up to 2^63). -/
def longMaxD : ℚ := 2 ^ 63

/-- Division of doubles: finite when the divisor is nonzero; a zero divisor
    produces a non-finite double (NaN when the dividend is also 0, otherwise
    an infinity), modelled as `none`. -/
def fdiv (a b : ℚ) : Option ℚ := if b = 0 then none else some (a / b)

/-- fmax on possibly non-finite doubles.  C99 fmax ignores NaN operands; a
    `none` operand here conflates NaN with the infinities, but no theorem
    below lets a `none` reach `fmaxO` (all are guarded by nonzero
    total-mass hypotheses or by the missing-value branch). -/
def fmaxO : Option ℚ → Option ℚ → Option ℚ
  | none, b => b
  | some x, none => some x
  | some x, some y => some (max x y)

/-- Addition of a finite double and a possibly non-finite one. -/
def addO (a : ℚ) : Option ℚ → Option ℚ
  | none => none
  | some x => some (a + x)

/-- The comparison `a > c` on a possibly non-finite double; a NaN comparison
    is false.  (Only finite values reach it in the theorems below.) -/
def gtO (a : Option ℚ) (c : ℚ) : Bool :=
  match a with
  | none => false
  | some q => decide (c < q)

/-- get_mean from t8_messy_coupler.cxx: running sum divided by the count. -/
def get_mean (values : List ℚ) : ℚ :=
  values.foldl (· + ·) 0 / (values.length : ℚ)

/-- get_max from t8_messy_coupler.cxx: fmax-fold starting from LONG_MIN. -/
def get_max (values : List ℚ) : ℚ :=
  values.foldl max longMinD

/-- get_min from t8_messy_coupler.cxx: fmin-fold starting from LONG_MAX. -/
def get_min (values : List ℚ) : ℚ :=
  values.foldl min longMaxD

/-- get_max lifted to possibly non-finite entries (the error lists can hold
    non-finite ratios); C99 fmax drops NaN operands. -/
def get_max_opt (l : List (Option ℚ)) : Option ℚ :=
  l.foldl fmaxO (some longMinD)

/-- get_values from t8_messy_coupler.cxx: the strided gather
    `values[i] = data[first + i * element_length + tracer]`. -/
def get_values (first num_elements element_length tracer : ℕ) (data : ℕ → ℚ) :
    List ℚ :=
  (List.range num_elements).map (fun i => data (first + i * element_length + tracer))

/-- mult_sum from t8_messy_coupler.cxx: sum of products, skipping index `i`
    exactly when BOTH `a[i]` and `b[i]` equal the missing value. -/
def mult_sum (a b : List ℚ) (missing_value : ℚ) : ℚ :=
  (a.zip b).foldl
    (fun s p => if p.1 = missing_value ∧ p.2 = missing_value then s else s + p.1 * p.2) 0

/-- sum from t8_messy_coupler.cxx: sum skipping entries equal to the missing
    value. -/
def sum (a : List ℚ) (missing_value : ℚ) : ℚ :=
  a.foldl (fun s x => if x = missing_value then s else s + x) 0

/-- calculate_error_ratios from t8_messy_coupler.cxx:
    `errors[i] = fabs(values[i] - value) / values[i]` (note the SIGNED
    denominator), and 0 when the value is missing or 0.  The interpolated
    `value` can be non-finite, in which case the ratio is non-finite. -/
def calculate_error_ratios (values : List ℚ) (value : Option ℚ)
    (missing_value : ℚ) : List (Option ℚ) :=
  values.map (fun v =>
    if v = missing_value ∨ v = 0 then some 0
    else value.map (fun w => |v - w| / v))

/-- Finite-case view of calculate_error_ratios (used to state theorems under
    a nonzero-total-mass hypothesis). -/
def calculate_error_ratios_q (values : List ℚ) (value : ℚ)
    (missing_value : ℚ) : List ℚ :=
  values.map (fun v =>
    if v = missing_value ∨ v = 0 then 0
    else |v - value| / v)

/-- The error ratio as the claim words it: `|value - interpolated| / |value|`
    with an ABSOLUTE denominator (the code divides by the signed value). -/
def calculate_error_ratios_spec (values : List ℚ) (value : ℚ)
    (missing_value : ℚ) : List ℚ :=
  values.map (fun v =>
    if v = missing_value ∨ v = 0 then 0
    else |v - value| / |v|)

/-- Numerator sum as the claim words it: skip sibling `i` when EITHER
    `values[i]` or `mass[i]` equals the missing value. -/
def mult_sum_spec (values mass : List ℚ) (missing_value : ℚ) : ℚ :=
  (values.zip mass).foldl
    (fun s p => if p.1 = missing_value ∨ p.2 = missing_value then s else s + p.1 * p.2) 0

/-- Denominator sum as the claim words it: sum of masses, skipping sibling
    `i` when EITHER `values[i]` or `mass[i]` equals the missing value. -/
def sum_mass_spec (values mass : List ℚ) (missing_value : ℚ) : ℚ :=
  (values.zip mass).foldl
    (fun s p => if p.1 = missing_value ∨ p.2 = missing_value then s else s + p.2) 0

/-- The interpolated value as claim C2 words it. -/
def interpolate_value_spec (values mass : List ℚ) (missing_value : ℚ) : ℚ :=
  mult_sum_spec values mass missing_value / sum_mass_spec values mass missing_value

/-- The coarsen method tags of t8_messy_coupler.h (as used by the .cxx). -/
inductive CoarsenMethod where
  | function
  | area_inside
  | area_outside
  | threshold_min_lower
  | threshold_min_higher
  | threshold_max_lower
  | threshold_max_higher
  | threshold_mean_lower
  | threshold_mean_higher
deriving DecidableEq

/-- t8_messy_coarsen_t: the coarsen configuration.  The custom predicate
    receives the configured z-layer, the tracer name and the sibling
    values. -/
structure t8_messy_coarsen_t where
  method : CoarsenMethod
  tracer : String
  z_layer : ℤ
  threshold : ℚ
  func : ℤ → String → List ℚ → Int

/-- t8_messy_new_coarsen_config: maps a method string to a method tag; any
    unrecognized string (including "error_tol") falls through to
    threshold_mean_lower. -/
def t8_messy_new_coarsen_config (method : String) (tracer : String)
    (z_layer : ℤ) (threshold : ℚ) (func : ℤ → String → List ℚ → Int) :
    t8_messy_coarsen_t :=
  { tracer := tracer
    z_layer := z_layer
    threshold := threshold
    func := func
    method :=
      if method = "mean_lower" then .threshold_mean_lower
      else if method = "mean_higher" then .threshold_mean_higher
      else if method = "min_lower" then .threshold_min_lower
      else if method = "min_higher" then .threshold_min_higher
      else if method = "max_lower" then .threshold_max_lower
      else if method = "max_higher" then .threshold_max_higher
      else if method = "custom" then .function
      else .threshold_mean_lower }

/-- The interpolation method tags of t8_messy_coupler.h (as used by the
    .cxx): there is no mass-weighted tag. -/
inductive InterpolateMethod where
  | function
  | min
  | max
  | mean
deriving DecidableEq

/-- t8_messy_interpolate_t: the interpolation configuration.  The custom
    function receives the z-layer, the tracer name and the sibling
    values. -/
structure t8_messy_interpolate_t where
  method : InterpolateMethod
  func : ℕ → String → List ℚ → ℚ

/-- t8_messy_new_interpolate_config: maps a method string to a method tag;
    any unrecognized string (including "mass_weighted") falls through to
    mean. -/
def t8_messy_new_interpolate_config (method : String)
    (func : ℕ → String → List ℚ → ℚ) : t8_messy_interpolate_t :=
  { method :=
      if method = "mean" then .mean
      else if method = "min" then .min
      else if method = "max" then .max
      else if method = "custom" then .function
      else .mean
    func := func }

/-- The part of the data chunk read by the coarsen predicates: tracer count,
    z-layer count, missing value, tracer names and the MORTON-ordered data
    array. -/
structure ChunkView where
  num_tracers : ℕ
  z_length : ℕ
  missing_value : ℚ
  tracer_names : List String
  data : ℕ → ℚ

/-- Start offset of element `lelement_id` in the MORTON data array
    (`lelement_id * z_length * num_tracers`). -/
def etol_start (C : ChunkView) (lelement_id : ℕ) : ℕ :=
  lelement_id * C.z_length * C.num_tracers

/-- The sibling masses at layer `z` (the mass tracer is the last one). -/
def etol_mass (C : ChunkView) (lelement_id n z : ℕ) : List ℚ :=
  get_values (etol_start C lelement_id + z * C.num_tracers) n
    (C.z_length * C.num_tracers) (C.num_tracers - 1) C.data

/-- Total mass of the siblings at layer `z`, skipping missing values. -/
def etol_total (C : ChunkView) (lelement_id n z : ℕ) : ℚ :=
  sum (etol_mass C lelement_id n z) C.missing_value

/-- The sibling values of tracer `d` at layer `z`. -/
def etol_values (C : ChunkView) (lelement_id n z d : ℕ) : List ℚ :=
  get_values (etol_start C lelement_id + z * C.num_tracers) n
    (C.z_length * C.num_tracers) d C.data

/-- The mass-weighted interpolated value for tracer `d` at layer `z`
    (non-finite when the total mass is 0). -/
def etol_interp (C : ChunkView) (lelement_id n z d : ℕ) : Option ℚ :=
  fdiv (mult_sum (etol_values C lelement_id n z d) (etol_mass C lelement_id n z)
          C.missing_value)
    (etol_total C lelement_id n z)

/-- Finite-case view of `etol_interp`. -/
def etol_interp_q (C : ChunkView) (lelement_id n z d : ℕ) : ℚ :=
  mult_sum (etol_values C lelement_id n z d) (etol_mass C lelement_id n z)
      C.missing_value /
    etol_total C lelement_id n z

/-- t8_messy_coarsen_by_error_tol_callback: keep a single element; otherwise
    merge exactly when for every z-layer and every non-mass tracer the
    largest error ratio produced by the mass-weighted interpolation does not
    exceed the literal 0.10.  The early-return double loop of the source is
    modelled with `List.all`. -/
def t8_messy_coarsen_by_error_tol_callback (C : ChunkView)
    (lelement_id num_elements : ℕ) : Int :=
  if num_elements = 1 then 0
  else if (List.range C.z_length).all (fun z =>
      (List.range (C.num_tracers - 1)).all (fun d =>
        !(gtO (get_max_opt (calculate_error_ratios
              (etol_values C lelement_id num_elements z d)
              (etol_interp C lelement_id num_elements z d)
              C.missing_value))
            (1 / 10))))
  then -1 else 0

/-- The adapt predicate actually installed by t8_messy_coarsen: the call
    `t8_forest_new_adapt(forest, t8_messy_coarsen_by_error_tol_callback, ...)`
    passes the error-tolerance callback for every configuration; the
    configuration's method tag is never consulted. -/
def t8_messy_coarsen_predicate (_cfg : t8_messy_coarsen_t) :
    ChunkView → ℕ → ℕ → Int :=
  fun C lelement_id num_elements =>
    t8_messy_coarsen_by_error_tol_callback C lelement_id num_elements

/-- Modelled from the spec: t8_latlon_get_tracer_idx (t8_latlon_data.c is
    not under src/) — "tracer_names has no duplicates; lookup is
    linear-scan".  Only the non-adding lookup is needed here. -/
def t8_latlon_get_tracer_idx (names : List String) (name : String) : ℕ :=
  names.indexOf name

/-- The coarsening predicate that claim C1 associates with each method
    string (spec 4.3.1): the threshold families reduce the siblings' values
    at the configured tracer and z-layer with min/max/mean and compare
    against the threshold, "custom" invokes the supplied function, and
    "error_tol" is the error-tolerance predicate.  This follows the claim's
    words, for comparison with the predicate the code installs. -/
def coarsen_predicate_named_spec (s : String) (cfg : t8_messy_coarsen_t)
    (C : ChunkView) (lelement_id n : ℕ) : Int :=
  if s = "error_tol" then
    t8_messy_coarsen_by_error_tol_callback C lelement_id n
  else
    let k := t8_latlon_get_tracer_idx C.tracer_names cfg.tracer
    let eL := C.z_length * C.num_tracers
    let values :=
      get_values (lelement_id * eL + cfg.z_layer.toNat * C.num_tracers) n eL k C.data
    if s = "custom" then cfg.func cfg.z_layer cfg.tracer values
    else if s = "min_lower" then (if get_min values < cfg.threshold then -1 else 0)
    else if s = "min_higher" then (if cfg.threshold < get_min values then -1 else 0)
    else if s = "max_lower" then (if get_max values < cfg.threshold then -1 else 0)
    else if s = "max_higher" then (if cfg.threshold < get_max values then -1 else 0)
    else if s = "mean_lower" then (if get_mean values < cfg.threshold then -1 else 0)
    else if s = "mean_higher" then (if cfg.threshold < get_mean values then -1 else 0)
    else 0

/-- The claim-side merge condition of C4: every (z, tracer) pair has its
    largest ABSOLUTE relative error at most 0.10. -/
def error_tol_merge_spec (C : ChunkView) (lelement_id n : ℕ) : Prop :=
  ∀ z < C.z_length, ∀ d < C.num_tracers - 1,
    get_max (calculate_error_ratios_spec (etol_values C lelement_id n z d)
        (etol_interp_q C lelement_id n z d) C.missing_value) ≤ 1 / 10

/-- The inputs of the interpolation callbacks: chunk geometry, the old
    (outgoing) arrays, and the replace-callback indices. -/
structure InterpCtx where
  num_tracers : ℕ
  z_length : ℕ
  missing_value : ℚ
  tracer_names : List String
  data : ℕ → ℚ
  errors : ℕ → ℚ
  errors_global : ℕ → ℚ
  num_outgoing : ℕ
  first_outgoing : ℕ
  num_incoming : ℕ
  first_incoming : ℕ

/-- The three adapt buffers written by the interpolation callbacks.  Their
    entries can be non-finite, hence `Option ℚ`. -/
structure AdaptBuffers where
  data_adapt : ℕ → Option ℚ
  errors_adapt : ℕ → Option ℚ
  errors_adapt_global : ℕ → Option ℚ

/-- element_length = num_tracers * z_length. -/
def cb2_eL (P : InterpCtx) : ℕ := P.num_tracers * P.z_length

/-- start = index_outgoing + z_offset. -/
def cb2_start (P : InterpCtx) (z : ℕ) : ℕ :=
  P.first_outgoing * cb2_eL P + z * P.num_tracers

/-- The sibling masses at layer `z` (mass tracer = last tracer). -/
def cb2_mass (P : InterpCtx) (z : ℕ) : List ℚ :=
  get_values (cb2_start P z) P.num_outgoing (cb2_eL P) (P.num_tracers - 1) P.data

/-- Total mass at layer `z`, skipping missing values. -/
def cb2_total (P : InterpCtx) (z : ℕ) : ℚ :=
  sum (cb2_mass P z) P.missing_value

/-- The sibling values of tracer `d` at layer `z`. -/
def cb2_values (P : InterpCtx) (z d : ℕ) : List ℚ :=
  get_values (cb2_start P z) P.num_outgoing (cb2_eL P) d P.data

/-- interpolated = mult_sum(values, mass) / total_mass (non-finite when the
    total mass is 0). -/
def cb2_interp (P : InterpCtx) (z d : ℕ) : Option ℚ :=
  fdiv (mult_sum (cb2_values P z d) (cb2_mass P z) P.missing_value) (cb2_total P z)

/-- The error ratios of one (z, d) pair. -/
def cb2_ratios (P : InterpCtx) (z d : ℕ) : List (Option ℚ) :=
  calculate_error_ratios (cb2_values P z d) (cb2_interp P z d) P.missing_value

/-- Slot of tracer `d` of the incoming element in the error arrays. -/
def cb2_eslot (P : InterpCtx) (d : ℕ) : ℕ :=
  P.first_incoming * (P.num_tracers - 1) + d

/-- Offset of tracer `j`, layer `z` of the incoming element in data_adapt. -/
def cb2_dslot (P : InterpCtx) (z j : ℕ) : ℕ :=
  P.first_incoming * cb2_eL P + z * P.num_tracers + j

/-- The inner tracer loop body of t8_messy_interpolate_callback2: store the
    interpolated value, fold the largest error ratio into errors_adapt, and
    overwrite errors_adapt_global with errors_global[slot] + max_local
    (note: errors_global is read at the INCOMING index). -/
def cb2_tracer_step (P : InterpCtx) (z : ℕ) (st : AdaptBuffers) (d : ℕ) :
    AdaptBuffers :=
  let st1 : AdaptBuffers :=
    { st with data_adapt := upd st.data_adapt (cb2_dslot P z d) (cb2_interp P z d) }
  let max_local :=
    fmaxO (st1.errors_adapt (cb2_eslot P d)) (get_max_opt (cb2_ratios P z d))
  let st2 : AdaptBuffers :=
    { st1 with errors_adapt := upd st1.errors_adapt (cb2_eslot P d) max_local }
  { st2 with
    errors_adapt_global :=
      upd st2.errors_adapt_global (cb2_eslot P d)
        (addO (P.errors_global (cb2_eslot P d)) max_local) }

/-- The z-layer loop body of t8_messy_interpolate_callback2: store the total
    mass in the mass slot, then run the tracer loop. -/
def cb2_z_step (P : InterpCtx) (st : AdaptBuffers) (z : ℕ) : AdaptBuffers :=
  let st1 : AdaptBuffers :=
    { st with
      data_adapt :=
        upd st.data_adapt (cb2_dslot P z (P.num_tracers - 1)) (some (cb2_total P z)) }
  (List.range (P.num_tracers - 1)).foldl (cb2_tracer_step P z) st1

/-- t8_messy_interpolate_callback2: the mass-weighted interpolation callback
    used by t8_messy_coarsen.  When elements merge it interpolates; else it
    copies the record and both error rows. -/
def t8_messy_interpolate_callback2 (P : InterpCtx) (st : AdaptBuffers) :
    AdaptBuffers :=
  if P.num_incoming < P.num_outgoing then
    (List.range P.z_length).foldl (cb2_z_step P) st
  else
    { data_adapt :=
        copyRange st.data_adapt (P.first_incoming * cb2_eL P) P.data
          (P.first_outgoing * cb2_eL P) (cb2_eL P)
      errors_adapt :=
        copyRange st.errors_adapt (P.first_incoming * (P.num_tracers - 1)) P.errors
          (P.first_outgoing * (P.num_tracers - 1)) (P.num_tracers - 1)
      errors_adapt_global :=
        copyRange st.errors_adapt_global (P.first_incoming * (P.num_tracers - 1))
          P.errors_global (P.first_outgoing * (P.num_tracers - 1))
          (P.num_tracers - 1) }

/-- A placeholder tracer name for out-of-range indices. -/
def emptyName : String := ""

/-- The per-tracer reduction of t8_messy_interpolate_callback; the four
    switch cases of the source run the same double loop with different
    bodies, factored here into one function of the method tag. -/
def icb_reduce (m : InterpolateMethod) (func : ℕ → String → List ℚ → ℚ)
    (tracer_names : List String) (z d : ℕ) (values : List ℚ) : ℚ :=
  match m with
  | .min => get_min values
  | .max => get_max values
  | .mean => get_mean values
  | .function => func z (tracer_names.getD d emptyName) values

/-- t8_messy_interpolate_callback: the method-dispatching interpolation
    callback (NOT the one t8_messy_coarsen uses).  It writes every tracer
    (the mass tracer included) with the selected reduction and does not
    touch the error arrays; in the copy case only the data record is
    copied. -/
def t8_messy_interpolate_callback (cfg : t8_messy_interpolate_t)
    (P : InterpCtx) (st : AdaptBuffers) : AdaptBuffers :=
  if P.num_incoming < P.num_outgoing then
    { st with
      data_adapt :=
        (List.range P.z_length).foldl (fun g z =>
          (List.range P.num_tracers).foldl (fun g2 d =>
            upd g2 (cb2_dslot P z d)
              (some (icb_reduce cfg.method cfg.func P.tracer_names z d
                (cb2_values P z d)))) g) st.data_adapt }
  else
    { st with
      data_adapt :=
        copyRange st.data_adapt (P.first_incoming * cb2_eL P) P.data
          (P.first_outgoing * cb2_eL P) (cb2_eL P) }

/-- The interpolation actually installed by t8_messy_coarsen: the call
    `t8_forest_iterate_replace(forest_adapt, forest, t8_messy_interpolate_callback2)`
    passes callback2 for every configuration; the configuration's method tag
    is never consulted. -/
def t8_messy_coarsen_interpolation (_cfg : t8_messy_interpolate_t) :
    InterpCtx → AdaptBuffers → AdaptBuffers :=
  fun P st => t8_messy_interpolate_callback2 P st

/-- The interpolation that claim C6 associates with each method string:
    mean/min/max/custom run the per-tracer reduction (the dispatching
    callback), and "mass_weighted" is the mass-weighted rule (callback2).
    This follows the claim's words, for comparison with what the code
    installs. -/
def interpolation_named_spec (s : String) (cfg : t8_messy_interpolate_t)
    (P : InterpCtx) (st : AdaptBuffers) : AdaptBuffers :=
  if s = "mass_weighted" then t8_messy_interpolate_callback2 P st
  else t8_messy_interpolate_callback cfg P st

/-- The global-error update as claim C3 words it: the maximum over the
    outgoing children of their errors_global entries, plus the local
    error. -/
def global_error_max_child_spec (P : InterpCtx) (d : ℕ) (localv : ℚ) : ℚ :=
  ((List.range P.num_outgoing).map (fun e =>
      P.errors_global ((P.first_outgoing + e) * (P.num_tracers - 1) + d))).foldl
    max (P.errors_global (P.first_outgoing * (P.num_tracers - 1) + d)) + localv

/-- The local error of one merge in the finite case: the largest error ratio
    over all z-layers and siblings for tracer `d`, floored at 0 (the adapt
    error buffer is zero-initialized). -/
def cb2_local_error_q (P : InterpCtx) (d : ℕ) : ℚ :=
  (List.range P.z_length).foldl (fun s z =>
    max s (get_max (calculate_error_ratios_q (cb2_values P z d)
      (mult_sum (cb2_values P z d) (cb2_mass P z) P.missing_value / cb2_total P z)
      P.missing_value))) 0

/-- The numbering tags of t8_latlon_data.h used by the coupler. -/
inductive LatLonNumbering where
  | messy
  | morton
deriving DecidableEq

/-- t8_latlon_data_chunk_t: the fields of the data chunk read or written by
    t8_messy_set_tracer_values. -/
structure t8_latlon_data_chunk_t where
  x_length : ℕ
  y_length : ℕ
  z_length : ℕ
  shape : ℕ → ℕ
  x_axis : ℕ
  y_axis : ℕ
  z_axis : ℕ
  num_tracers : ℕ
  missing_value : ℚ
  numbering : LatLonNumbering
  tracer_names : List String
  data : ℕ → ℚ

/-- The idx[] decomposition of input index `i` in t8_messy_set_tracer_values:
    idx[0] = i / (shape0*shape1), idx[1] = (i % (shape0*shape1)) / shape0,
    idx[2] = (i % (shape0*shape1)) % shape0. -/
def chunk_idx (c : t8_latlon_data_chunk_t) (i p : ℕ) : ℕ :=
  if p = 0 then i / (c.shape 0 * c.shape 1)
  else if p = 1 then (i % (c.shape 0 * c.shape 1)) / c.shape 0
  else (i % (c.shape 0 * c.shape 1)) % c.shape 0

/-- The data_index computation of t8_messy_set_tracer_values:
    x = idx[2 - x_axis], y = (y_length - 1) - idx[2 - y_axis],
    z = idx[2 - z_axis], and
    data_index = ((y*z_length*x_length + x*z_length + z)*num_tracers) + tracer. -/
def chunk_data_index (c : t8_latlon_data_chunk_t) (tracer_index i : ℕ) : ℕ :=
  let x := chunk_idx c i (2 - c.x_axis)
  let y := (c.y_length - 1) - chunk_idx c i (2 - c.y_axis)
  let z := chunk_idx c i (2 - c.z_axis)
  (y * c.z_length * c.x_length + x * c.z_length + z) * c.num_tracers + tracer_index

/-- t8_messy_set_tracer_values, with the tracer index that the (trimmed)
    name resolves to passed explicitly (the resolution itself,
    t8_latlon_get_tracer_idx with add, lives outside src/).  The loop copies
    every input scalar to its canonical DENSE offset. -/
def t8_messy_set_tracer_values (c : t8_latlon_data_chunk_t)
    (tracer_index : ℕ) (input : ℕ → ℚ) : t8_latlon_data_chunk_t :=
  { c with
    data :=
      (List.range (c.x_length * c.y_length * c.z_length)).foldl
        (fun g i => upd g (chunk_data_index c tracer_index i) (input i)) c.data }

/-- The idx[] entry that holds a given logical coordinate: position
    2 - x_axis holds x, position 2 - y_axis holds y, position 2 - z_axis
    holds z. -/
def chunk_input_idx (c : t8_latlon_data_chunk_t) (p ix iy iz : ℕ) : ℕ :=
  if p = 2 - c.x_axis then ix
  else if p = 2 - c.y_axis then iy
  else iz

/-- The input-buffer index of the scalar at logical coordinates
    (ix, iy, iz): the axis named first in the axis string varies fastest. -/
def chunk_input_index (c : t8_latlon_data_chunk_t) (ix iy iz : ℕ) : ℕ :=
  chunk_input_idx c 0 ix iy iz * (c.shape 0 * c.shape 1) +
    chunk_input_idx c 1 ix iy iz * c.shape 0 +
    chunk_input_idx c 2 ix iy iz

/-- Result of the adapt loop of t8_messy_coarsen: how many times
    t8_forest_new_adapt ran, the forest at exit, and the live buffers. -/
structure CoarsenLoopResult (φ β : Type) where
  adapt_calls : ℕ
  forest : φ
  buffers : β

/-- The adapt loop of t8_messy_coarsen, with the forest library abstracted:
    `adaptF` is t8_forest_new_adapt with the error-tolerance callback,
    `numEl` is t8_forest_get_num_element, and `fill` is
    t8_forest_iterate_replace filling fresh adapt buffers from the old ones.
    Each round adapts, breaks BEFORE allocating or swapping when the element
    count equals last_num_elements (initially 0), and otherwise swaps the
    filled buffers in and continues with the adapted forest. -/
def t8_messy_coarsen_loop {φ β : Type} (adaptF : φ → φ) (numEl : φ → ℕ)
    (fill : φ → φ → β → β) :
    ℕ → φ → β → ℕ → CoarsenLoopResult φ β
  | 0, F, B, _ => ⟨0, F, B⟩
  | fuel + 1, F, B, last =>
      let Fa := adaptF F
      if numEl Fa = last then ⟨1, F, B⟩
      else
        let res :=
          t8_messy_coarsen_loop adaptF numEl fill fuel Fa (fill Fa F B) (numEl Fa)
        ⟨res.adapt_calls + 1, res.forest, res.buffers⟩

/-- t8_messy_coarsen: the round loop `for(r=0; r < 10; ++r)` starting from
    last_num_elements = 0. -/
def t8_messy_coarsen {φ β : Type} (adaptF : φ → φ) (numEl : φ → ℕ)
    (fill : φ → φ → β → β) (F0 : φ) (B0 : β) : CoarsenLoopResult φ β :=
  t8_messy_coarsen_loop adaptF numEl fill 10 F0 B0 0

/-- The buffers live after `m` completed (buffer-swapping) rounds. -/
def coarsen_buffers {φ β : Type} (adaptF : φ → φ) (fill : φ → φ → β → β)
    (F0 : φ) (B0 : β) : ℕ → β
  | 0 => B0
  | m + 1 =>
      fill (adaptF^[m + 1] F0) (adaptF^[m] F0) (coarsen_buffers adaptF fill F0 B0 m)

/- ------------------------------------------------------------------ -/
/- Concrete inputs used by counterexamples and witnesses.              -/
/- ------------------------------------------------------------------ -/

/-- A custom coarsen predicate that always keeps. -/
def czero : ℤ → String → List ℚ → Int := fun _ _ _ => 0

/-- A custom interpolation function that always returns 0. -/
def izero : ℕ → String → List ℚ → ℚ := fun _ _ _ => 0

/-- Two tracers (tracer "q" and mass "m"), one z-layer, four siblings with
    tracer value 5 and mass 1, missing value 99. -/
def chunk_uniform : ChunkView :=
  { num_tracers := 2, z_length := 1, missing_value := 99,
    tracer_names := ["q", "m"],
    data := fun o => if o % 2 = 1 then 1 else 5 }

/-- Four siblings with tracer values (-1, -1, -1, -100), masses 1, missing
    value 7. -/
def chunk_negative : ChunkView :=
  { num_tracers := 2, z_length := 1, missing_value := 7,
    tracer_names := ["q", "m"],
    data := fun o =>
      if o = 6 then -100 else if o % 2 = 1 then 1 else -1 }

/-- A merge of four siblings with tracer values 3, masses 1, missing value
    99; the old global error is 5 at slot 1 and 0 elsewhere. -/
def ctx_plain : InterpCtx :=
  { num_tracers := 2, z_length := 1, missing_value := 99,
    tracer_names := ["q", "m"],
    data := fun o => if o % 2 = 1 then 1 else 3,
    errors := fun _ => 0,
    errors_global := fun s => if s = 1 then 5 else 0,
    num_outgoing := 4, first_outgoing := 0,
    num_incoming := 1, first_incoming := 0 }

/-- A merge of four siblings with tracer values (7, 1, 1, 1) and masses
    (2, 1, 1, 1), missing value 7: sibling 0 has a missing value but a
    present mass. -/
def ctx_halfmissing : InterpCtx :=
  { num_tracers := 2, z_length := 1, missing_value := 7,
    tracer_names := ["q", "m"],
    data := fun o => if o = 0 then 7 else if o = 1 then 2 else 1,
    errors := fun _ => 0,
    errors_global := fun _ => 0,
    num_outgoing := 4, first_outgoing := 0,
    num_incoming := 1, first_incoming := 0 }

/-- A merge of four siblings in which every value and every mass equals the
    missing value 5. -/
def ctx_allmissing : InterpCtx :=
  { num_tracers := 2, z_length := 1, missing_value := 5,
    tracer_names := ["q", "m"],
    data := fun _ => 5,
    errors := fun _ => 0,
    errors_global := fun _ => 0,
    num_outgoing := 4, first_outgoing := 0,
    num_incoming := 1, first_incoming := 0 }

/-- A merge of four siblings with a single tracer (the mass) with values
    (2, 8, 8, 8), missing value 99. -/
def ctx_single : InterpCtx :=
  { num_tracers := 1, z_length := 1, missing_value := 99,
    tracer_names := ["m"],
    data := fun o => if o = 0 then 2 else 8,
    errors := fun _ => 0,
    errors_global := fun _ => 0,
    num_outgoing := 4, first_outgoing := 0,
    num_incoming := 1, first_incoming := 0 }

/-- Freshly allocated adapt buffers: the error buffer is zero-initialized
    (T8_ALLOC_ZERO); the data and global buffers are written before being
    read, their initial contents are irrelevant. -/
def buffers0 : AdaptBuffers :=
  { data_adapt := fun _ => none,
    errors_adapt := fun _ => some 0,
    errors_adapt_global := fun _ => none }

/-- The interpolate configuration built from the string "min". -/
def icfg_min : t8_messy_interpolate_t := t8_messy_new_interpolate_config ("min") izero

/-- The coarsen configuration built from the string "min_higher" with
    threshold 100 on tracer "q", z-layer 0. -/
def cfg_min_higher : t8_messy_coarsen_t :=
  t8_messy_new_coarsen_config ("min_higher") ("q") 0 100 czero

/-- A 2x2x1 chunk with one tracer and axis string "XYZ"
    (x innermost: x_axis = 0, y_axis = 1, z_axis = 2). -/
def chunk_c9 : t8_latlon_data_chunk_t :=
  { x_length := 2, y_length := 2, z_length := 1,
    shape := fun p => if p = 2 then 1 else 2,
    x_axis := 0, y_axis := 1, z_axis := 2,
    num_tracers := 1, missing_value := 99, numbering := .messy,
    tracer_names := ["m"], data := fun _ => 0 }

/-- Input buffer holding its own index as value. -/
def input_c9 : ℕ → ℚ := fun i => (i : ℚ)

/-- The same chunk with two tracers. -/
def chunk_c10 : t8_latlon_data_chunk_t :=
  { chunk_c9 with num_tracers := 2 }


/- ------------------------------------------------------------------ -/
/- Generic lemmas about array updates and write loops.                 -/
/- ------------------------------------------------------------------ -/

theorem upd_same {α : Type} (f : ℕ → α) (i : ℕ) (v : α) : upd f i v i = v := by
  simp [upd]

theorem upd_ne {α : Type} (f : ℕ → α) (i j : ℕ) (v : α) (h : j ≠ i) :
    upd f i v j = f j := by
  simp [upd, h]

theorem foldl_component {σ α β' : Type} (f : σ → α) (step : σ → β' → σ)
    (fstep : α → β' → α) (l : List β')
    (h : ∀ s b, b ∈ l → f (step s b) = fstep (f s) b) :
    ∀ st, f (l.foldl step st) = l.foldl fstep (f st) := by
  induction l with
  | nil => intro st; rfl
  | cons a t ih =>
      intro st
      simp only [List.foldl_cons]
      rw [ih (fun s b hb => h s b (List.mem_cons_of_mem a hb)),
        h st a (List.mem_cons_self a t)]

theorem foldl_upd_notin {α : Type} (l : List ℕ) (key : ℕ → ℕ) (v : ℕ → α)
    (g : ℕ → α) (o : ℕ) (h : ∀ i ∈ l, o ≠ key i) :
    (l.foldl (fun g2 i => upd g2 (key i) (v i)) g) o = g o := by
  induction l generalizing g with
  | nil => rfl
  | cons a t ih =>
      simp only [List.foldl_cons]
      rw [ih _ (fun i hi => h i (List.mem_cons_of_mem a hi)),
        upd_ne _ _ _ _ (h a (List.mem_cons_self a t))]

theorem foldl_upd_range_at {α : Type} (m : ℕ) (key : ℕ → ℕ) (v : ℕ → α)
    (hinj : ∀ i < m, ∀ j < m, key i = key j → i = j) (g : ℕ → α) (d : ℕ)
    (hd : d < m) :
    ((List.range m).foldl (fun g2 i => upd g2 (key i) (v i)) g) (key d) = v d := by
  induction m generalizing g with
  | zero => omega
  | succ n ih =>
      rw [List.range_succ, List.foldl_append]
      simp only [List.foldl_cons, List.foldl_nil]
      by_cases hdn : d = n
      · subst hdn; exact upd_same _ _ _
      · have hne : key d ≠ key n := fun he =>
          hdn (hinj d (by omega) n (by omega) he)
        rw [upd_ne _ _ _ _ hne]
        exact ih (fun i hi j hj he => hinj i (by omega) j (by omega) he) g (by omega)

theorem foldl_rmw_notin {α : Type} (l : List ℕ) (key : ℕ → ℕ) (v : ℕ → α → α)
    (g : ℕ → α) (o : ℕ) (h : ∀ i ∈ l, o ≠ key i) :
    (l.foldl (fun g2 i => upd g2 (key i) (v i (g2 (key i)))) g) o = g o := by
  induction l generalizing g with
  | nil => rfl
  | cons a t ih =>
      simp only [List.foldl_cons]
      rw [ih _ (fun i hi => h i (List.mem_cons_of_mem a hi)),
        upd_ne _ _ _ _ (h a (List.mem_cons_self a t))]

theorem foldl_rmw_range_at {α : Type} (m : ℕ) (key : ℕ → ℕ) (v : ℕ → α → α)
    (hinj : ∀ i < m, ∀ j < m, key i = key j → i = j) (g : ℕ → α) (d : ℕ)
    (hd : d < m) :
    ((List.range m).foldl (fun g2 i => upd g2 (key i) (v i (g2 (key i)))) g)
        (key d)
      = v d (g (key d)) := by
  induction m generalizing g with
  | zero => omega
  | succ n ih =>
      rw [List.range_succ, List.foldl_append]
      simp only [List.foldl_cons, List.foldl_nil]
      by_cases hdn : d = n
      · subst hdn
        rw [upd_same,
          foldl_rmw_notin _ _ _ _ _ (fun i hi he => by
            have : i = d := hinj i (by simp at hi; omega) d (by omega) he.symm
            simp at hi; omega)]
      · have hne : key d ≠ key n := fun he =>
          hdn (hinj d (by omega) n (by omega) he)
        rw [upd_ne _ _ _ _ hne]
        exact ih (fun i hi j hj he => hinj i (by omega) j (by omega) he) g (by omega)

theorem foldl_skip_all {α β' : Type} (l : List β') (f : α → β' → α)
    (h : ∀ a b, b ∈ l → f a b = a) (a0 : α) : l.foldl f a0 = a0 := by
  induction l generalizing a0 with
  | nil => rfl
  | cons a t ih =>
      simp only [List.foldl_cons]
      rw [h a0 a (List.mem_cons_self a t)]
      exact ih (fun x b hb => h x b (List.mem_cons_of_mem a hb)) a0

/- ------------------------------------------------------------------ -/
/- Structure of the interpolation callback (merge case).               -/
/- ------------------------------------------------------------------ -/

theorem cb2_tracer_step_data (P : InterpCtx) (z : ℕ) (st : AdaptBuffers) (d : ℕ) :
    (cb2_tracer_step P z st d).data_adapt
      = upd st.data_adapt (cb2_dslot P z d) (cb2_interp P z d) := rfl

theorem cb2_tracer_step_err (P : InterpCtx) (z : ℕ) (st : AdaptBuffers) (d : ℕ) :
    (cb2_tracer_step P z st d).errors_adapt
      = upd st.errors_adapt (cb2_eslot P d)
          (fmaxO (st.errors_adapt (cb2_eslot P d))
            (get_max_opt (cb2_ratios P z d))) := rfl

theorem cb2_tracer_step_glob (P : InterpCtx) (z : ℕ) (st : AdaptBuffers) (d : ℕ) :
    (cb2_tracer_step P z st d).errors_adapt_global
      = upd st.errors_adapt_global (cb2_eslot P d)
          (addO (P.errors_global (cb2_eslot P d))
            (fmaxO (st.errors_adapt (cb2_eslot P d))
              (get_max_opt (cb2_ratios P z d)))) := rfl

theorem cb2_eslot_inj (P : InterpCtx) (m : ℕ) :
    ∀ i < m, ∀ j < m, cb2_eslot P i = cb2_eslot P j → i = j := by
  intro i _ j _ h
  simp only [cb2_eslot] at h
  omega

theorem cb2_dslot_inj_d (P : InterpCtx) (z m : ℕ) :
    ∀ i < m, ∀ j < m, cb2_dslot P z i = cb2_dslot P z j → i = j := by
  intro i _ j _ h
  simp only [cb2_dslot] at h
  omega

/-- The data component of the inner tracer loop, as a pure write loop. -/
theorem cb2_inner_data (P : InterpCtx) (z : ℕ) (st : AdaptBuffers) :
    ((List.range (P.num_tracers - 1)).foldl (cb2_tracer_step P z) st).data_adapt
      = (List.range (P.num_tracers - 1)).foldl
          (fun g d => upd g (cb2_dslot P z d) (cb2_interp P z d)) st.data_adapt :=
  foldl_component (fun s => s.data_adapt) (cb2_tracer_step P z) _ _
    (fun s b _ => cb2_tracer_step_data P z s b) st

/-- The local-error component of the inner tracer loop, as a
    read-modify-write loop. -/
theorem cb2_inner_err (P : InterpCtx) (z : ℕ) (st : AdaptBuffers) :
    ((List.range (P.num_tracers - 1)).foldl (cb2_tracer_step P z) st).errors_adapt
      = (List.range (P.num_tracers - 1)).foldl
          (fun g d =>
            upd g (cb2_eslot P d)
              (fmaxO (g (cb2_eslot P d)) (get_max_opt (cb2_ratios P z d))))
          st.errors_adapt :=
  foldl_component (fun s => s.errors_adapt) (cb2_tracer_step P z) _ _
    (fun s b _ => cb2_tracer_step_err P z s b) st

/-- The (errors_adapt, errors_adapt_global) pair component of the inner
    tracer loop. -/
theorem cb2_inner_pair (P : InterpCtx) (z : ℕ) (st : AdaptBuffers) :
    ((List.range (P.num_tracers - 1)).foldl (cb2_tracer_step P z) st).errors_adapt_global
      = ((List.range (P.num_tracers - 1)).foldl
          (fun (p : (ℕ → Option ℚ) × (ℕ → Option ℚ)) d =>
            (upd p.1 (cb2_eslot P d)
                (fmaxO (p.1 (cb2_eslot P d)) (get_max_opt (cb2_ratios P z d))),
              upd p.2 (cb2_eslot P d)
                (addO (P.errors_global (cb2_eslot P d))
                  (fmaxO (p.1 (cb2_eslot P d)) (get_max_opt (cb2_ratios P z d))))))
          (st.errors_adapt, st.errors_adapt_global)).2 := by
  have h := foldl_component
    (fun s : AdaptBuffers => (s.errors_adapt, s.errors_adapt_global))
    (cb2_tracer_step P z)
    (fun (p : (ℕ → Option ℚ) × (ℕ → Option ℚ)) d =>
      (upd p.1 (cb2_eslot P d)
          (fmaxO (p.1 (cb2_eslot P d)) (get_max_opt (cb2_ratios P z d))),
        upd p.2 (cb2_eslot P d)
          (addO (P.errors_global (cb2_eslot P d))
            (fmaxO (p.1 (cb2_eslot P d)) (get_max_opt (cb2_ratios P z d))))))
    (List.range (P.num_tracers - 1))
    (fun s b _ => rfl) st
  exact congrArg Prod.snd h

theorem mul_add_lt_mul_add (a b u v T : ℕ) (h : a < b) (hu : u < T) :
    a * T + u < b * T + v := by
  have h1 : a * T + u < (a + 1) * T := by
    have : (a + 1) * T = a * T + T := by ring
    omega
  have h2 : (a + 1) * T ≤ b * T := Nat.mul_le_mul_right T h
  omega

theorem cb2_dslot_ne (P : InterpCtx) (z z' j j' : ℕ) (hz : z ≠ z')
    (hj : j < P.num_tracers) (hj' : j' < P.num_tracers) :
    cb2_dslot P z j ≠ cb2_dslot P z' j' := by
  simp only [cb2_dslot]
  rcases Nat.lt_or_ge z z' with h | h
  · have := mul_add_lt_mul_add z z' j j' P.num_tracers h hj
    omega
  · have hlt : z' < z := by omega
    have := mul_add_lt_mul_add z' z j' j P.num_tracers hlt hj'
    omega

theorem cb2_z_step_data_at (P : InterpCtx) (st : AdaptBuffers) (z j : ℕ)
    (hj : j < P.num_tracers) :
    (cb2_z_step P st z).data_adapt (cb2_dslot P z j)
      = if j = P.num_tracers - 1 then some (cb2_total P z)
        else cb2_interp P z j := by
  unfold cb2_z_step
  rw [cb2_inner_data]
  by_cases hj' : j = P.num_tracers - 1
  · subst hj'
    rw [if_pos rfl,
      foldl_upd_notin _ _ _ _ _ (fun i hi he => by
        have hi' : i < P.num_tracers - 1 := List.mem_range.mp hi
        have : P.num_tracers - 1 = i :=
          cb2_dslot_inj_d P z P.num_tracers (P.num_tracers - 1) (by omega) i
            (by omega) he
        omega)]
    exact upd_same _ _ _
  · rw [if_neg hj']
    exact foldl_upd_range_at (P.num_tracers - 1) _ _
      (cb2_dslot_inj_d P z (P.num_tracers - 1)) _ j (by omega)

theorem cb2_z_step_data_other (P : InterpCtx) (st : AdaptBuffers) (z : ℕ)
    (o : ℕ) (hT : 0 < P.num_tracers)
    (ho : ∀ j < P.num_tracers, o ≠ cb2_dslot P z j) :
    (cb2_z_step P st z).data_adapt o = st.data_adapt o := by
  unfold cb2_z_step
  rw [cb2_inner_data,
    foldl_upd_notin _ _ _ _ _ (fun i hi => by
      have hi' : i < P.num_tracers - 1 := List.mem_range.mp hi
      exact ho i (by omega))]
  exact upd_ne _ _ _ _ (ho (P.num_tracers - 1) (by omega))

theorem cb2_fold_data_at (P : InterpCtx) (st : AdaptBuffers)
    (hT : 0 < P.num_tracers) :
    ∀ n, ∀ z < n, ∀ j < P.num_tracers,
      ((List.range n).foldl (cb2_z_step P) st).data_adapt (cb2_dslot P z j)
        = if j = P.num_tracers - 1 then some (cb2_total P z)
          else cb2_interp P z j := by
  intro n
  induction n with
  | zero => omega
  | succ m ih =>
      intro z hz j hj
      rw [List.range_succ, List.foldl_append]
      simp only [List.foldl_cons, List.foldl_nil]
      by_cases hzm : z = m
      · subst hzm
        exact cb2_z_step_data_at P _ z j hj
      · rw [cb2_z_step_data_other P _ m _ hT (fun j' hj' he =>
          cb2_dslot_ne P z m j j' (by omega) hj hj' he)]
        exact ih z (by omega) j hj

theorem cb2_z_step_err_at (P : InterpCtx) (st : AdaptBuffers) (z d : ℕ)
    (hd : d < P.num_tracers - 1) :
    (cb2_z_step P st z).errors_adapt (cb2_eslot P d)
      = fmaxO (st.errors_adapt (cb2_eslot P d))
          (get_max_opt (cb2_ratios P z d)) := by
  unfold cb2_z_step
  rw [cb2_inner_err]
  exact foldl_rmw_range_at (P.num_tracers - 1) (cb2_eslot P)
    (fun i s => fmaxO s (get_max_opt (cb2_ratios P z i)))
    (cb2_eslot_inj P (P.num_tracers - 1)) _ d hd

theorem cb2_fold_err (P : InterpCtx) (st : AdaptBuffers) (d : ℕ)
    (hd : d < P.num_tracers - 1) (n : ℕ) :
    ((List.range n).foldl (cb2_z_step P) st).errors_adapt (cb2_eslot P d)
      = (List.range n).foldl
          (fun s z => fmaxO s (get_max_opt (cb2_ratios P z d)))
          (st.errors_adapt (cb2_eslot P d)) :=
  foldl_component (fun s => s.errors_adapt (cb2_eslot P d)) (cb2_z_step P)
    (fun s z => fmaxO s (get_max_opt (cb2_ratios P z d))) (List.range n)
    (fun s z _ => cb2_z_step_err_at P s z d hd) st

theorem foldl_rmw2_range_at {α : Type} (m : ℕ) (key : ℕ → ℕ)
    (v w : ℕ → α → α)
    (hinj : ∀ i < m, ∀ j < m, key i = key j → i = j) (e g : ℕ → α) (d : ℕ)
    (hd : d < m) :
    ((List.range m).foldl
        (fun p i =>
          (upd p.1 (key i) (v i (p.1 (key i))),
            upd p.2 (key i) (w i (p.1 (key i))))) (e, g)).2 (key d)
      = w d (e (key d)) := by
  induction m generalizing e g with
  | zero => omega
  | succ n ih =>
      rw [List.range_succ, List.foldl_append]
      simp only [List.foldl_cons, List.foldl_nil]
      have hfst :
          ((List.range n).foldl
              (fun p i =>
                (upd p.1 (key i) (v i (p.1 (key i))),
                  upd p.2 (key i) (w i (p.1 (key i))))) (e, g)).1
            = (List.range n).foldl
                (fun g2 i => upd g2 (key i) (v i (g2 (key i)))) e :=
        foldl_component Prod.fst _ _ (List.range n) (fun s b _ => rfl) (e, g)
      by_cases hdn : d = n
      · subst hdn
        rw [upd_same, hfst,
          foldl_rmw_notin _ _ _ _ _ (fun i hi he => by
            have hi' := List.mem_range.mp hi
            have : d = i := hinj d (by omega) i (by omega) he
            omega)]
      · have hne : key d ≠ key n := fun he =>
          hdn (hinj d (by omega) n (by omega) he)
        rw [upd_ne _ _ _ _ hne]
        exact ih (fun i hi j hj he => hinj i (by omega) j (by omega) he) e g
          (by omega)

theorem cb2_z_step_glob_at (P : InterpCtx) (st : AdaptBuffers) (z d : ℕ)
    (hd : d < P.num_tracers - 1) :
    (cb2_z_step P st z).errors_adapt_global (cb2_eslot P d)
      = addO (P.errors_global (cb2_eslot P d))
          (fmaxO (st.errors_adapt (cb2_eslot P d))
            (get_max_opt (cb2_ratios P z d))) := by
  unfold cb2_z_step
  rw [cb2_inner_pair]
  exact foldl_rmw2_range_at (P.num_tracers - 1) (cb2_eslot P)
    (fun i s => fmaxO s (get_max_opt (cb2_ratios P z i)))
    (fun i s =>
      addO (P.errors_global (cb2_eslot P i))
        (fmaxO s (get_max_opt (cb2_ratios P z i))))
    (cb2_eslot_inj P (P.num_tracers - 1)) _ _ d hd

theorem gstep_fold_snd (M : ℕ → Option ℚ) (G : ℚ) :
    ∀ (l : List ℕ) (a b : Option ℚ), l ≠ [] →
      (l.foldl (fun p z => (fmaxO p.1 (M z), addO G (fmaxO p.1 (M z)))) (a, b)).2
        = addO G
            ((l.foldl (fun p z => (fmaxO p.1 (M z), addO G (fmaxO p.1 (M z))))
                (a, b)).1) := by
  intro l
  induction l with
  | nil => intro a b h; exact absurd rfl h
  | cons x t ih =>
      intro a b _
      simp only [List.foldl_cons]
      rcases t with _ | ⟨y, t'⟩
      · rfl
      · exact ih _ _ (by simp)

theorem cb2_fold_glob (P : InterpCtx) (st : AdaptBuffers) (d : ℕ)
    (hd : d < P.num_tracers - 1) (n : ℕ) (hn : 0 < n) :
    ((List.range n).foldl (cb2_z_step P) st).errors_adapt_global (cb2_eslot P d)
      = addO (P.errors_global (cb2_eslot P d))
          (((List.range n).foldl (cb2_z_step P) st).errors_adapt
            (cb2_eslot P d)) := by
  have hpair := foldl_component
    (fun s : AdaptBuffers =>
      (s.errors_adapt (cb2_eslot P d), s.errors_adapt_global (cb2_eslot P d)))
    (cb2_z_step P)
    (fun p z =>
      (fmaxO p.1 (get_max_opt (cb2_ratios P z d)),
        addO (P.errors_global (cb2_eslot P d))
          (fmaxO p.1 (get_max_opt (cb2_ratios P z d)))))
    (List.range n)
    (fun s z _ => by
      have h1 := cb2_z_step_err_at P s z d hd
      have h2 := cb2_z_step_glob_at P s z d hd
      exact Prod.ext h1 h2) st
  have hne : List.range n ≠ [] := by
    intro h
    have := List.length_eq_zero.mpr h
    simp at this
    omega
  have hsnd := gstep_fold_snd (fun z => get_max_opt (cb2_ratios P z d))
    (P.errors_global (cb2_eslot P d)) (List.range n)
    (st.errors_adapt (cb2_eslot P d))
    (st.errors_adapt_global (cb2_eslot P d)) hne
  have hglob := congrArg Prod.snd hpair
  have herr := congrArg Prod.fst hpair
  simp only at hglob herr
  rw [hglob, hsnd, ← herr]

/- ------------------------------------------------------------------ -/
/- Finite-case and missing-value lemmas.                               -/
/- ------------------------------------------------------------------ -/

theorem fdiv_some (a b : ℚ) (h : b ≠ 0) : fdiv a b = some (a / b) := by
  simp [fdiv, h]

theorem calculate_error_ratios_map_some (values : List ℚ) (w missing_value : ℚ) :
    calculate_error_ratios values (some w) missing_value
      = (calculate_error_ratios_q values w missing_value).map some := by
  simp only [calculate_error_ratios, calculate_error_ratios_q, List.map_map]
  refine List.map_congr_left fun v _ => ?_
  by_cases hv : v = missing_value ∨ v = 0 <;> simp [hv]

theorem foldl_fmaxO_map_some (l : List ℚ) :
    ∀ a : ℚ, (l.map some).foldl fmaxO (some a) = some (l.foldl max a) := by
  induction l with
  | nil => intro a; rfl
  | cons x t ih =>
      intro a
      simp only [List.map_cons, List.foldl_cons]
      rw [show fmaxO (some a) (some x) = some (max a x) from rfl]
      exact ih (max a x)

theorem get_max_opt_map_some (l : List ℚ) :
    get_max_opt (l.map some) = some (get_max l) :=
  foldl_fmaxO_map_some l longMinD

theorem foldl_sum_skip_all (l : List ℚ) (missing_value : ℚ)
    (h : ∀ x ∈ l, x = missing_value) : sum l missing_value = 0 := by
  unfold sum
  exact foldl_skip_all l _ (fun a x hx => by simp [h x hx]) 0

theorem mult_sum_all_missing (a b : List ℚ) (missing_value : ℚ)
    (ha : ∀ x ∈ a, x = missing_value) (hb : ∀ x ∈ b, x = missing_value) :
    mult_sum a b missing_value = 0 := by
  unfold mult_sum
  refine foldl_skip_all _ _ (fun s p hp => ?_) 0
  have hmem := List.of_mem_zip hp
  simp [ha p.1 hmem.1, hb p.2 hmem.2]

theorem get_max_opt_all_zero (l : List (Option ℚ)) (hl : l ≠ [])
    (h : ∀ x ∈ l, x = some 0) : get_max_opt l = some 0 := by
  unfold get_max_opt
  have key : ∀ (t : List (Option ℚ)) (a : ℚ), t ≠ [] → (∀ x ∈ t, x = some 0) →
      t.foldl fmaxO (some a) = some (max a 0) := by
    intro t
    induction t with
    | nil => intro a h1 _; exact absurd rfl h1
    | cons x t' ih =>
        intro a _ hx
        simp only [List.foldl_cons]
        rw [hx x (List.mem_cons_self x t')]
        rw [show fmaxO (some a) (some 0) = some (max a 0) from rfl]
        rcases t' with _ | ⟨y, t''⟩
        · rfl
        · rw [ih (max a 0) (by simp)
            (fun u hu => hx u (List.mem_cons_of_mem x hu))]
          rw [max_assoc, max_self]
  rw [key l longMinD hl h]
  have : max longMinD (0 : ℚ) = 0 := by
    rw [max_eq_right]
    norm_num [longMinD]
  rw [this]

theorem foldl_fmax_zero (l : List ℕ) (M : ℕ → Option ℚ)
    (h : ∀ z ∈ l, M z = some 0) :
    l.foldl (fun s z => fmaxO s (M z)) (some 0) = some 0 := by
  induction l with
  | nil => rfl
  | cons x t ih =>
      simp only [List.foldl_cons]
      rw [h x (List.mem_cons_self x t),
        show fmaxO (some 0) (some 0) = some (max 0 0) from rfl, max_self]
      exact ih (fun z hz => h z (List.mem_cons_of_mem x hz))

theorem cb2_values_all_missing (P : InterpCtx) (z d : ℕ)
    (hd : d < P.num_tracers)
    (hmiss : ∀ e < P.num_outgoing, ∀ j < P.num_tracers,
      P.data (cb2_start P z + e * cb2_eL P + j) = P.missing_value) :
    ∀ x ∈ cb2_values P z d, x = P.missing_value := by
  intro x hx
  simp only [cb2_values, get_values, List.mem_map, List.mem_range] at hx
  obtain ⟨i, hi, rfl⟩ := hx
  exact hmiss i hi d hd

theorem cb2_mass_all_missing (P : InterpCtx) (z : ℕ)
    (hT : 0 < P.num_tracers)
    (hmiss : ∀ e < P.num_outgoing, ∀ j < P.num_tracers,
      P.data (cb2_start P z + e * cb2_eL P + j) = P.missing_value) :
    ∀ x ∈ cb2_mass P z, x = P.missing_value := by
  intro x hx
  simp only [cb2_mass, get_values, List.mem_map, List.mem_range] at hx
  obtain ⟨i, hi, rfl⟩ := hx
  exact hmiss i hi (P.num_tracers - 1) (by omega)

/- ------------------------------------------------------------------ -/
/- Claim theorems.                                                     -/
/- ------------------------------------------------------------------ -/

/-- C1 (counterexample): for the configuration built from "min_higher"
    (threshold 100), the predicate t8_messy_coarsen actually evaluates (the
    error-tolerance callback, which merges this uniform group) differs from
    the predicate named by the method (min 5 > 100 fails, keep). -/
theorem coarsen_predicate_ignores_method_cex :
    t8_messy_coarsen_predicate cfg_min_higher chunk_uniform 0 4
      ≠ coarsen_predicate_named_spec ("min_higher") cfg_min_higher
          chunk_uniform 0 4 := by
  norm_num [t8_messy_coarsen_predicate, t8_messy_coarsen_by_error_tol_callback,
    coarsen_predicate_named_spec, cfg_min_higher, chunk_uniform,
    t8_messy_new_coarsen_config, t8_latlon_get_tracer_idx,
    etol_values, etol_mass, etol_total, etol_interp, etol_start,
    get_values, mult_sum, sum, calculate_error_ratios, get_max_opt,
    fmaxO, gtO, fdiv, get_min, get_max, get_mean, longMinD, longMaxD,
    List.range_succ, decide_eq_false_iff_not, decide_eq_true_eq,
    (by decide : ("min_higher" : String) ≠ "error_tol"),
    (by decide : ("min_higher" : String) ≠ "custom"),
    (by decide : ("min_higher" : String) ≠ "min_lower")]

/-- C1 (amended): t8_messy_coarsen evaluates the error-tolerance predicate
    for EVERY configuration, whatever method string it was built from; and
    t8_messy_new_coarsen_config maps the seven recognized strings to their
    tags while "error_tol" is not recognized and falls through to
    threshold_mean_lower. -/
theorem coarsen_always_error_tol (t : String) (zl : ℤ) (th : ℚ)
    (f : ℤ → String → List ℚ → Int) :
    (∀ (s : String) (C : ChunkView) (le n : ℕ),
      t8_messy_coarsen_predicate (t8_messy_new_coarsen_config s t zl th f) C le n
        = t8_messy_coarsen_by_error_tol_callback C le n) ∧
    (t8_messy_new_coarsen_config ("mean_lower") t zl th f).method
        = CoarsenMethod.threshold_mean_lower ∧
    (t8_messy_new_coarsen_config ("mean_higher") t zl th f).method
        = CoarsenMethod.threshold_mean_higher ∧
    (t8_messy_new_coarsen_config ("min_lower") t zl th f).method
        = CoarsenMethod.threshold_min_lower ∧
    (t8_messy_new_coarsen_config ("min_higher") t zl th f).method
        = CoarsenMethod.threshold_min_higher ∧
    (t8_messy_new_coarsen_config ("max_lower") t zl th f).method
        = CoarsenMethod.threshold_max_lower ∧
    (t8_messy_new_coarsen_config ("max_higher") t zl th f).method
        = CoarsenMethod.threshold_max_higher ∧
    (t8_messy_new_coarsen_config ("custom") t zl th f).method
        = CoarsenMethod.function ∧
    (t8_messy_new_coarsen_config ("error_tol") t zl th f).method
        = CoarsenMethod.threshold_mean_lower := by
  exact ⟨fun s C le n => rfl, rfl, rfl, rfl, rfl, rfl, rfl, rfl, rfl⟩

/-- C2 (counterexample): with missing value 7, values (7, 1, 1, 1) and
    masses (2, 1, 1, 1), the stored value is 17/5 (the code skips a product
    only when BOTH operands are missing), not the claim's
    either-operand-skipping value 1. -/
theorem interpolate_skip_rule_cex :
    (t8_messy_interpolate_callback2 ctx_halfmissing buffers0).data_adapt
        (cb2_dslot ctx_halfmissing 0 0)
      ≠ some (interpolate_value_spec (cb2_values ctx_halfmissing 0 0)
          (cb2_mass ctx_halfmissing 0) ctx_halfmissing.missing_value) := by
  simp [t8_messy_interpolate_callback2, cb2_z_step, cb2_tracer_step,
    cb2_dslot, cb2_eslot, cb2_interp, cb2_total, cb2_mass, cb2_values,
    cb2_start, cb2_eL, cb2_ratios, get_values, mult_sum, sum,
    calculate_error_ratios, get_max_opt, fmaxO, addO, fdiv, upd,
    ctx_halfmissing, buffers0, longMinD, List.range_succ,
    interpolate_value_spec, mult_sum_spec, sum_mass_spec]
  norm_num

/-- C2 (amended): when four siblings merge, for every z-layer and non-mass
    tracer and nonzero total mass, the stored value is
    mult_sum(values, mass) / sum(mass), where the NUMERATOR skips a sibling
    only when both its value and its mass equal missing_value and the
    DENOMINATOR skips a sibling when its mass equals missing_value. -/
theorem interpolate_value_formula (P : InterpCtx) (st : AdaptBuffers)
    (z d : ℕ) (hm : P.num_incoming < P.num_outgoing)
    (_hn : P.num_outgoing = 4) (hT : 0 < P.num_tracers)
    (hz : z < P.z_length) (hd : d < P.num_tracers - 1)
    (htm : cb2_total P z ≠ 0) :
    (t8_messy_interpolate_callback2 P st).data_adapt (cb2_dslot P z d)
      = some (mult_sum (cb2_values P z d) (cb2_mass P z) P.missing_value
          / cb2_total P z) := by
  unfold t8_messy_interpolate_callback2
  rw [if_pos hm, cb2_fold_data_at P st hT P.z_length z hz d (by omega),
    if_neg (by omega)]
  exact fdiv_some _ _ htm

/-- C2 witness. -/
theorem interpolate_value_formula_witness :
    ctx_plain.num_incoming < ctx_plain.num_outgoing ∧
    cb2_total ctx_plain 0 ≠ 0 ∧
    (t8_messy_interpolate_callback2 ctx_plain buffers0).data_adapt
        (cb2_dslot ctx_plain 0 0)
      = some (mult_sum (cb2_values ctx_plain 0 0) (cb2_mass ctx_plain 0)
          ctx_plain.missing_value / cb2_total ctx_plain 0) :=
  ⟨by decide,
    by norm_num [cb2_total, cb2_mass, cb2_start, cb2_eL, get_values, sum,
      ctx_plain, List.range_succ],
    interpolate_value_formula ctx_plain buffers0 0 0 (by decide) (by decide)
      (by decide) (by decide) (by decide)
      (by norm_num [cb2_total, cb2_mass, cb2_start, cb2_eL, get_values, sum,
        ctx_plain, List.range_succ])⟩

/-- C3 (code bug): at a concrete merge where the four children carry old
    global errors (0, 5, 0, 0) and the merge has local error 0, the code
    stores errors_global[first_incoming] + local = 0, while the claimed
    lineage rule max_child(errors_global) + local gives 5.  The code reads
    the old global-error array at the NEW leaf's index (the copy branch of
    the same callback reads the same array at first_outgoing). -/
theorem global_error_reads_incoming_index :
    (t8_messy_interpolate_callback2 ctx_plain buffers0).errors_adapt_global
        (cb2_eslot ctx_plain 0) = some 0 ∧
    global_error_max_child_spec ctx_plain 0 0 = 5 ∧
    (0 : ℚ) ≠ 5 :=
  ⟨by
    simp [t8_messy_interpolate_callback2, cb2_z_step, cb2_tracer_step,
      cb2_dslot, cb2_eslot, cb2_interp, cb2_total, cb2_mass, cb2_values,
      cb2_start, cb2_eL, cb2_ratios, get_values, mult_sum, sum,
      calculate_error_ratios, get_max_opt, fmaxO, addO, fdiv, upd,
      ctx_plain, buffers0, longMinD, List.range_succ]
    norm_num,
    by simp [global_error_max_child_spec, ctx_plain, List.range_succ],
    by norm_num⟩

/-- C5 (counterexample): when all four siblings' values and masses equal the
    missing value, the stored tracer value is the non-finite result of
    0.0/0.0 (modelled `none`), NOT the claimed 0; the recorded local error
    is 0 as claimed. -/
theorem all_missing_value_not_zero_cex :
    (t8_messy_interpolate_callback2 ctx_allmissing buffers0).data_adapt
        (cb2_dslot ctx_allmissing 0 0) = none ∧
    (none : Option ℚ) ≠ some 0 ∧
    (t8_messy_interpolate_callback2 ctx_allmissing buffers0).errors_adapt
        (cb2_eslot ctx_allmissing 0) = some 0 :=
  ⟨by
    simp [t8_messy_interpolate_callback2, cb2_z_step, cb2_tracer_step,
      cb2_dslot, cb2_eslot, cb2_interp, cb2_total, cb2_mass, cb2_values,
      cb2_start, cb2_eL, cb2_ratios, get_values, mult_sum, sum,
      calculate_error_ratios, get_max_opt, fmaxO, addO, fdiv, upd,
      ctx_allmissing, buffers0, longMinD, List.range_succ],
  by simp,
  by
    simp [t8_messy_interpolate_callback2, cb2_z_step, cb2_tracer_step,
      cb2_dslot, cb2_eslot, cb2_interp, cb2_total, cb2_mass, cb2_values,
      cb2_start, cb2_eL, cb2_ratios, get_values, mult_sum, sum,
      calculate_error_ratios, get_max_opt, fmaxO, addO, fdiv, upd,
      ctx_allmissing, buffers0, longMinD, List.range_succ]⟩

/-- C5 (amended): for a merging group in which, at every z-layer, every
    sibling's value and mass equals missing_value, the interpolation stores
    a non-finite value (0.0/0.0) for every non-mass tracer at every layer —
    not 0 — and records a local error of 0 for the new leaf (given the
    zero-initialized adapt error buffer). -/
theorem all_missing_nonfinite_and_zero_error (P : InterpCtx)
    (st : AdaptBuffers) (hm : P.num_incoming < P.num_outgoing)
    (hT : 0 < P.num_tracers)
    (hmiss : ∀ z < P.z_length, ∀ e < P.num_outgoing, ∀ j < P.num_tracers,
      P.data (cb2_start P z + e * cb2_eL P + j) = P.missing_value)
    (hinit : ∀ d < P.num_tracers - 1,
      st.errors_adapt (cb2_eslot P d) = some 0) :
    (∀ z < P.z_length, ∀ d < P.num_tracers - 1,
      (t8_messy_interpolate_callback2 P st).data_adapt (cb2_dslot P z d)
        = none) ∧
    (∀ d < P.num_tracers - 1,
      (t8_messy_interpolate_callback2 P st).errors_adapt (cb2_eslot P d)
        = some 0) := by
  constructor
  · intro z hz d hd
    unfold t8_messy_interpolate_callback2
    rw [if_pos hm, cb2_fold_data_at P st hT P.z_length z hz d (by omega),
      if_neg (by omega)]
    unfold cb2_interp
    have htot : cb2_total P z = 0 :=
      foldl_sum_skip_all _ _ (cb2_mass_all_missing P z hT (hmiss z hz))
    rw [htot]
    simp [fdiv]
  · intro d hd
    unfold t8_messy_interpolate_callback2
    rw [if_pos hm, cb2_fold_err P st d hd P.z_length, hinit d hd]
    apply foldl_fmax_zero
    intro z hzmem
    have hz := List.mem_range.mp hzmem
    have hvals := cb2_values_all_missing P z d (by omega) (hmiss z hz)
    apply get_max_opt_all_zero
    · have hlen : (cb2_ratios P z d).length = P.num_outgoing := by
        simp [cb2_ratios, calculate_error_ratios, cb2_values, get_values]
      intro hnil
      rw [hnil] at hlen
      simp at hlen
      omega
    · intro x hx
      simp only [cb2_ratios, calculate_error_ratios, List.mem_map] at hx
      obtain ⟨v, hv, rfl⟩ := hx
      rw [if_pos (Or.inl (hvals v hv))]

/-- C5 witness. -/
theorem all_missing_nonfinite_and_zero_error_witness :
    ctx_allmissing.num_incoming < ctx_allmissing.num_outgoing ∧
    ((∀ z < ctx_allmissing.z_length, ∀ d < ctx_allmissing.num_tracers - 1,
      (t8_messy_interpolate_callback2 ctx_allmissing buffers0).data_adapt
        (cb2_dslot ctx_allmissing z d) = none) ∧
    (∀ d < ctx_allmissing.num_tracers - 1,
      (t8_messy_interpolate_callback2 ctx_allmissing buffers0).errors_adapt
        (cb2_eslot ctx_allmissing d) = some 0)) :=
  ⟨by decide,
    all_missing_nonfinite_and_zero_error ctx_allmissing buffers0 (by decide)
      (by decide)
      (by intro z hz e he j hj; norm_num [ctx_allmissing])
      (by intro d hd; norm_num [buffers0])⟩

/-- C6 (counterexample): for the configuration built from "min", the
    interpolation t8_messy_coarsen actually applies (mass-weighted
    callback2, which stores the mass sum 26 in the single-tracer slot)
    differs from the min reduction (2) named by the configuration. -/
theorem interpolation_ignores_method_cex :
    (t8_messy_coarsen_interpolation icfg_min ctx_single buffers0).data_adapt
        (cb2_dslot ctx_single 0 0)
      ≠ (interpolation_named_spec ("min") icfg_min ctx_single
          buffers0).data_adapt (cb2_dslot ctx_single 0 0) := by
  simp [t8_messy_coarsen_interpolation, t8_messy_interpolate_callback2,
    interpolation_named_spec, t8_messy_interpolate_callback, icfg_min,
    t8_messy_new_interpolate_config, icb_reduce, cb2_z_step,
    cb2_tracer_step, cb2_dslot, cb2_eslot, cb2_interp, cb2_total, cb2_mass,
    cb2_values, cb2_start, cb2_eL, cb2_ratios, get_values, mult_sum, sum,
    calculate_error_ratios, get_max_opt, fmaxO, addO, fdiv, upd, get_min,
    get_max, get_mean, ctx_single, buffers0, longMinD, longMaxD,
    List.range_succ]
  norm_num

/-- C6 (amended): t8_messy_coarsen applies the mass-weighted interpolation
    callback2 for EVERY interpolate configuration; the configuration's
    method selects among mean/min/max/custom only inside
    t8_messy_interpolate_callback, which t8_messy_coarsen never invokes, and
    t8_messy_new_interpolate_config does not recognize "mass_weighted"
    (it falls through to mean). -/
theorem coarsen_interpolation_always_mass_weighted
    (f : ℕ → String → List ℚ → ℚ) :
    (∀ (cfg : t8_messy_interpolate_t) (P : InterpCtx) (st : AdaptBuffers),
      t8_messy_coarsen_interpolation cfg P st
        = t8_messy_interpolate_callback2 P st) ∧
    (t8_messy_new_interpolate_config ("mean") f).method
        = InterpolateMethod.mean ∧
    (t8_messy_new_interpolate_config ("min") f).method
        = InterpolateMethod.min ∧
    (t8_messy_new_interpolate_config ("max") f).method
        = InterpolateMethod.max ∧
    (t8_messy_new_interpolate_config ("custom") f).method
        = InterpolateMethod.function ∧
    (t8_messy_new_interpolate_config ("mass_weighted") f).method
        = InterpolateMethod.mean := by
  exact ⟨fun cfg P st => rfl, rfl, rfl, rfl, rfl, rfl⟩

/-- C7: when four siblings merge, for every z-layer the stored mass value
    (last tracer) is the sum of the four siblings' masses, skipping those
    equal to missing_value. -/
theorem merged_mass_is_sum (P : InterpCtx) (st : AdaptBuffers) (z : ℕ)
    (hm : P.num_incoming < P.num_outgoing) (_hn : P.num_outgoing = 4)
    (hT : 0 < P.num_tracers) (hz : z < P.z_length) :
    (t8_messy_interpolate_callback2 P st).data_adapt
        (cb2_dslot P z (P.num_tracers - 1))
      = some (sum (cb2_mass P z) P.missing_value) := by
  unfold t8_messy_interpolate_callback2
  rw [if_pos hm,
    cb2_fold_data_at P st hT P.z_length z hz (P.num_tracers - 1) (by omega),
    if_pos rfl]
  rfl

/-- C7 witness. -/
theorem merged_mass_is_sum_witness :
    ctx_plain.num_incoming < ctx_plain.num_outgoing ∧
    (t8_messy_interpolate_callback2 ctx_plain buffers0).data_adapt
        (cb2_dslot ctx_plain 0 (ctx_plain.num_tracers - 1))
      = some (sum (cb2_mass ctx_plain 0) ctx_plain.missing_value) :=
  ⟨by decide,
    merged_mass_is_sum ctx_plain buffers0 0 (by decide) (by decide)
      (by decide) (by decide)⟩

/-- Bridge for the error-tolerance test of one (z, d) pair under a nonzero
    total mass: the callback's Boolean check equals the finite-case
    comparison against 0.10. -/
theorem etol_inner_eq (C : ChunkView) (le n z d : ℕ)
    (htm : etol_total C le n z ≠ 0) :
    (!(gtO (get_max_opt (calculate_error_ratios (etol_values C le n z d)
        (etol_interp C le n z d) C.missing_value)) (1 / 10)))
      = decide (get_max (calculate_error_ratios_q (etol_values C le n z d)
          (etol_interp_q C le n z d) C.missing_value) ≤ 1 / 10) := by
  rw [show etol_interp C le n z d = some (etol_interp_q C le n z d) from by
      unfold etol_interp etol_interp_q
      exact fdiv_some _ _ htm,
    calculate_error_ratios_map_some, get_max_opt_map_some]
  simp only [gtO, ← decide_not, not_lt]

/-- C4 (counterexample): for the group with values (-1, -1, -1, -100) and
    masses 1, the code's signed ratios are all negative, so it merges
    (returns -1), while the claim's absolute-denominator ratio at sibling 0
    is 99/4 > 0.10, so the claim says keep. -/
theorem error_tol_ratio_sign_cex :
    t8_messy_coarsen_by_error_tol_callback chunk_negative 0 4 = -1 ∧
    ¬ error_tol_merge_spec chunk_negative 0 4 := by
  constructor
  · norm_num [t8_messy_coarsen_by_error_tol_callback, chunk_negative,
      etol_values, etol_mass, etol_total, etol_interp, etol_start,
      get_values, mult_sum, sum, calculate_error_ratios, get_max_opt,
      fmaxO, gtO, fdiv, longMinD, List.range_succ,
      decide_eq_false_iff_not, decide_eq_true_eq, abs_of_pos]
  · unfold error_tol_merge_spec
    intro h
    have h00 := h 0 (by norm_num [chunk_negative]) 0
      (by norm_num [chunk_negative])
    rw [show get_max (calculate_error_ratios_spec
            (etol_values chunk_negative 0 4 0 0)
            (etol_interp_q chunk_negative 0 4 0 0)
            chunk_negative.missing_value) = 99 / 4 from by
        norm_num [chunk_negative, etol_values, etol_mass, etol_total,
          etol_interp_q, etol_start, get_values, mult_sum, sum,
          calculate_error_ratios_spec, get_max, longMinD, List.range_succ,
          abs_of_pos]] at h00
    norm_num at h00

/-- C4 (amended): for a group of four siblings with nonzero total mass at
    every layer, the error-tolerance callback merges (returns -1) if and
    only if for every z-layer and every non-mass tracer the largest error
    ratio — `|value - interpolated| / value`, with the SIGNED value as
    denominator, 0 for missing or zero values — is at most 0.10. -/
theorem error_tol_merge_iff (C : ChunkView) (le n : ℕ) (hn : n = 4)
    (htm : ∀ z < C.z_length, etol_total C le n z ≠ 0) :
    t8_messy_coarsen_by_error_tol_callback C le n = -1
      ↔ ∀ z < C.z_length, ∀ d < C.num_tracers - 1,
          get_max (calculate_error_ratios_q (etol_values C le n z d)
            (etol_interp_q C le n z d) C.missing_value) ≤ 1 / 10 := by
  subst hn
  unfold t8_messy_coarsen_by_error_tol_callback
  rw [if_neg (by omega : ¬ (4 = 1))]
  have hsplit : ∀ b : Bool,
      ((if b = true then (-1 : Int) else 0) = -1 ↔ b = true) := by
    intro b; cases b <;> simp
  rw [hsplit, List.all_eq_true]
  constructor
  · intro h z hz d hd
    have hin := h z (List.mem_range.mpr hz)
    rw [List.all_eq_true] at hin
    have hval := hin d (List.mem_range.mpr hd)
    rw [etol_inner_eq C le 4 z d (htm z hz)] at hval
    exact of_decide_eq_true hval
  · intro h x hx
    rw [List.all_eq_true]
    intro d hd
    rw [etol_inner_eq C le 4 x d (htm x (List.mem_range.mp hx))]
    exact decide_eq_true
      (h x (List.mem_range.mp hx) d (List.mem_range.mp hd))

/-- C4 witness. -/
theorem error_tol_merge_iff_witness :
    (∀ z < chunk_uniform.z_length, etol_total chunk_uniform 0 4 z ≠ 0) ∧
    (t8_messy_coarsen_by_error_tol_callback chunk_uniform 0 4 = -1
      ↔ ∀ z < chunk_uniform.z_length, ∀ d < chunk_uniform.num_tracers - 1,
          get_max (calculate_error_ratios_q (etol_values chunk_uniform 0 4 z d)
            (etol_interp_q chunk_uniform 0 4 z d)
            chunk_uniform.missing_value) ≤ 1 / 10) :=
  ⟨by
    intro z hz
    simp only [chunk_uniform] at hz
    interval_cases z
    norm_num [etol_total, etol_mass, etol_start, get_values, sum,
      chunk_uniform, List.range_succ],
  error_tol_merge_iff chunk_uniform 0 4 rfl (by
    intro z hz
    simp only [chunk_uniform] at hz
    interval_cases z
    norm_num [etol_total, etol_mass, etol_start, get_values, sum,
      chunk_uniform, List.range_succ])⟩

/-- The adapt loop performs at most `fuel` adapt calls. -/
theorem coarsen_loop_calls_le {φ β : Type} (adaptF : φ → φ) (numEl : φ → ℕ)
    (fill : φ → φ → β → β) :
    ∀ (fuel : ℕ) (F : φ) (B : β) (last : ℕ),
      (t8_messy_coarsen_loop adaptF numEl fill fuel F B last).adapt_calls
        ≤ fuel := by
  intro fuel
  induction fuel with
  | zero => intro F B last; simp [t8_messy_coarsen_loop]
  | succ n ih =>
      intro F B last
      by_cases h : numEl (adaptF F) = last
      · simp [t8_messy_coarsen_loop, h]
      · simp only [t8_messy_coarsen_loop, h, if_neg, ite_false]
        have := ih (adaptF F) (fill (adaptF F) F B) (numEl (adaptF F))
        simp
        omega

/-- Unfolding step of the loop when the element count matched (break before
    any allocation or swap). -/
theorem coarsen_loop_stop {φ β : Type} (adaptF : φ → φ) (numEl : φ → ℕ)
    (fill : φ → φ → β → β) (fuel : ℕ) (F : φ) (B : β) (last : ℕ)
    (h : numEl (adaptF F) = last) :
    t8_messy_coarsen_loop adaptF numEl fill (fuel + 1) F B last
      = ⟨1, F, B⟩ := by
  simp [t8_messy_coarsen_loop, h]

/-- Unfolding step of the loop when the element count changed (fill the
    adapt buffers, swap, continue with the adapted forest). -/
theorem coarsen_loop_go {φ β : Type} (adaptF : φ → φ) (numEl : φ → ℕ)
    (fill : φ → φ → β → β) (fuel : ℕ) (F : φ) (B : β) (last : ℕ)
    (h : numEl (adaptF F) ≠ last) :
    t8_messy_coarsen_loop adaptF numEl fill (fuel + 1) F B last
      = ⟨(t8_messy_coarsen_loop adaptF numEl fill fuel (adaptF F)
            (fill (adaptF F) F B) (numEl (adaptF F))).adapt_calls + 1,
          (t8_messy_coarsen_loop adaptF numEl fill fuel (adaptF F)
            (fill (adaptF F) F B) (numEl (adaptF F))).forest,
          (t8_messy_coarsen_loop adaptF numEl fill fuel (adaptF F)
            (fill (adaptF F) F B) (numEl (adaptF F))).buffers⟩ := by
  simp [t8_messy_coarsen_loop, h]

/-- From round `i ≥ 1` on (the forest is `adaptF^[i] F0`, the buffers have
    been swapped `i` times, last_num_elements is the current forest's
    count), the loop stops at the first round `j` whose adapted count equals
    the count of the forest entering it. -/
theorem coarsen_loop_trace {φ β : Type} (adaptF : φ → φ) (numEl : φ → ℕ)
    (fill : φ → φ → β → β) (F0 : φ) (B0 : β) (j : ℕ)
    (hstop : numEl (adaptF^[j + 1] F0) = numEl (adaptF^[j] F0)) :
    ∀ (fuel i : ℕ), 1 ≤ i → i ≤ j → j < i + fuel →
      (∀ m, i ≤ m → m < j →
        numEl (adaptF^[m + 1] F0) ≠ numEl (adaptF^[m] F0)) →
      t8_messy_coarsen_loop adaptF numEl fill fuel (adaptF^[i] F0)
          (coarsen_buffers adaptF fill F0 B0 i) (numEl (adaptF^[i] F0))
        = ⟨j - i + 1, adaptF^[j] F0, coarsen_buffers adaptF fill F0 B0 j⟩ := by
  intro fuel
  induction fuel with
  | zero => intro i _ h2 h3 _; omega
  | succ nf ih =>
      intro i h1 h2 h3 hne
      by_cases hij : i = j
      · subst hij
        have hs : numEl (adaptF (adaptF^[i] F0)) = numEl (adaptF^[i] F0) := by
          rw [← Function.iterate_succ_apply' adaptF i F0]
          exact hstop
        rw [coarsen_loop_stop _ _ _ _ _ _ _ hs]
        have : i - i + 1 = 1 := by omega
        rw [this]
      · have hlt : i < j := by omega
        have hg : numEl (adaptF (adaptF^[i] F0)) ≠ numEl (adaptF^[i] F0) := by
          rw [← Function.iterate_succ_apply' adaptF i F0]
          exact hne i (by omega) (by omega)
        rw [coarsen_loop_go _ _ _ _ _ _ _ hg]
        have e1 : adaptF (adaptF^[i] F0) = adaptF^[i + 1] F0 :=
          (Function.iterate_succ_apply' adaptF i F0).symm
        have e2 : fill (adaptF (adaptF^[i] F0)) (adaptF^[i] F0)
            (coarsen_buffers adaptF fill F0 B0 i)
            = coarsen_buffers adaptF fill F0 B0 (i + 1) := by
          rw [coarsen_buffers, e1]
        rw [e2, e1,
          ih (i + 1) (by omega) (by omega) (by omega)
            (fun m hm1 hm2 => hne m (by omega) hm2)]
        have : j - (i + 1) + 1 + 1 = j - i + 1 := by omega
        rw [this]

/-- C8: t8_messy_coarsen performs at most 10 adapt rounds; with the forest
    library abstracted (`adaptF` = t8_forest_new_adapt with the installed
    callback, `numEl` = t8_forest_get_num_element, `fill` =
    t8_forest_iterate_replace filling fresh adapt buffers), if round `j`
    (1 ≤ j < 10) is the first whose adapted forest has the same element
    count as the forest entering it, the loop stops there after j + 1 adapt
    calls, having swapped the filled adapt buffers in on each of the j
    preceding rounds (the break happens before any allocation or swap). -/
theorem coarsen_rounds_spec {φ β : Type} (adaptF : φ → φ) (numEl : φ → ℕ)
    (fill : φ → φ → β → β) (F0 : φ) (B0 : β) (j : ℕ)
    (hj1 : 1 ≤ j) (hj10 : j < 10)
    (h0 : numEl (adaptF F0) ≠ 0)
    (hne : ∀ m, m < j → 1 ≤ m →
      numEl (adaptF^[m + 1] F0) ≠ numEl (adaptF^[m] F0))
    (hstop : numEl (adaptF^[j + 1] F0) = numEl (adaptF^[j] F0)) :
    t8_messy_coarsen adaptF numEl fill F0 B0
        = ⟨j + 1, adaptF^[j] F0, coarsen_buffers adaptF fill F0 B0 j⟩ ∧
    (∀ (G : φ) (C : β) (l : ℕ),
      (t8_messy_coarsen_loop adaptF numEl fill 10 G C l).adapt_calls ≤ 10) := by
  constructor
  · unfold t8_messy_coarsen
    rw [show (10 : ℕ) = 9 + 1 from rfl, coarsen_loop_go _ _ _ _ _ _ _ h0]
    have e2 : fill (adaptF F0) F0 B0 = coarsen_buffers adaptF fill F0 B0 1 := by
      rw [coarsen_buffers, coarsen_buffers, Function.iterate_one,
        Function.iterate_zero_apply]
    have e1 : adaptF F0 = adaptF^[1] F0 := by rw [Function.iterate_one]
    rw [e2, e1,
      coarsen_loop_trace adaptF numEl fill F0 B0 j hstop 9 1 (le_refl 1) hj1
        (by omega) (fun m hm1 hm2 => hne m hm2 hm1)]
    have : j - 1 + 1 + 1 = j + 1 := by omega
    rw [this]
  · intro G C l
    exact coarsen_loop_calls_le adaptF numEl fill 10 G C l

/-- C8 witness: forests abstracted as element counts, adapt quarters the
    count (floored at 1), buffers count the swaps: 16 → 4 → 1 → 1 stops at
    round 2 after 3 adapt calls with 2 buffer swaps. -/
theorem coarsen_rounds_spec_witness :
    ((fun n => max 1 (n / 4)) : ℕ → ℕ)^[2 + 1] 16
        = ((fun n => max 1 (n / 4)) : ℕ → ℕ)^[2] 16 ∧
    (t8_messy_coarsen (fun n => max 1 (n / 4)) id (fun _ _ b => b + 1) 16 0
        = ⟨3, ((fun n => max 1 (n / 4)) : ℕ → ℕ)^[2] 16,
            coarsen_buffers (fun n => max 1 (n / 4)) (fun _ _ b => b + 1)
              16 0 2⟩ ∧
      (∀ (G : ℕ) (C : ℕ) (l : ℕ),
        (t8_messy_coarsen_loop (fun n => max 1 (n / 4)) id
          (fun _ _ b => b + 1) 10 G C l).adapt_calls ≤ 10)) :=
  ⟨by decide,
    coarsen_rounds_spec (fun n => max 1 (n / 4)) id (fun _ _ b => b + 1) 16 0
      2 (by decide) (by decide) (by decide)
      (by decide) (by decide)⟩

/- ------------------------------------------------------------------ -/
/- Mixed-radix arithmetic for the dense layout.                        -/
/- ------------------------------------------------------------------ -/

theorem decode3_aux (b c s0 s1 : ℕ) (hb : b < s1) (hc : c < s0) :
    b * s0 + c < s0 * s1 := by
  have h2 : b * s0 + s0 = (b + 1) * s0 := by ring
  have h3 : (b + 1) * s0 ≤ s1 * s0 := Nat.mul_le_mul_right s0 (by omega)
  have h4 : s1 * s0 = s0 * s1 := Nat.mul_comm s1 s0
  omega

theorem decode3_div (a b c s0 s1 : ℕ) (hb : b < s1) (hc : c < s0) :
    (a * (s0 * s1) + b * s0 + c) / (s0 * s1) = a := by
  have hr := decode3_aux b c s0 s1 hb hc
  have hpos : 0 < s0 * s1 := Nat.mul_pos (by omega) (by omega)
  rw [show a * (s0 * s1) + b * s0 + c = s0 * s1 * a + (b * s0 + c) by ring,
    Nat.mul_add_div hpos, Nat.div_eq_of_lt hr]
  omega

theorem decode3_mod (a b c s0 s1 : ℕ) (hb : b < s1) (hc : c < s0) :
    (a * (s0 * s1) + b * s0 + c) % (s0 * s1) = b * s0 + c := by
  have hr := decode3_aux b c s0 s1 hb hc
  rw [show a * (s0 * s1) + b * s0 + c = s0 * s1 * a + (b * s0 + c) by ring,
    Nat.mul_add_mod]
  exact Nat.mod_eq_of_lt hr

theorem decode3_mid (a b c s0 s1 : ℕ) (hb : b < s1) (hc : c < s0) :
    ((a * (s0 * s1) + b * s0 + c) % (s0 * s1)) / s0 = b := by
  rw [decode3_mod a b c s0 s1 hb hc,
    show b * s0 + c = s0 * b + c by ring,
    Nat.mul_add_div (by omega : 0 < s0), Nat.div_eq_of_lt hc]
  omega

theorem decode3_low (a b c s0 s1 : ℕ) (hb : b < s1) (hc : c < s0) :
    ((a * (s0 * s1) + b * s0 + c) % (s0 * s1)) % s0 = c := by
  rw [decode3_mod a b c s0 s1 hb hc,
    show b * s0 + c = s0 * b + c by ring, Nat.mul_add_mod]
  exact Nat.mod_eq_of_lt hc

theorem encode3_lt (a b c s0 s1 s2 : ℕ) (ha : a < s2) (hb : b < s1)
    (hc : c < s0) : a * (s0 * s1) + b * s0 + c < s0 * s1 * s2 := by
  have h1 : b * s0 + c < s0 * s1 := decode3_aux b c s0 s1 hb hc
  have h2 : a * (s0 * s1) + s0 * s1 = (a + 1) * (s0 * s1) := by ring
  have h3 : (a + 1) * (s0 * s1) ≤ s2 * (s0 * s1) :=
    Nat.mul_le_mul_right _ (by omega)
  have h4 : s2 * (s0 * s1) = s0 * s1 * s2 := by ring
  omega

theorem chunk_size_eq (c : t8_latlon_data_chunk_t)
    (hx3 : c.x_axis < 3) (hy3 : c.y_axis < 3) (hz3 : c.z_axis < 3)
    (hxy : c.x_axis ≠ c.y_axis) (hxz : c.x_axis ≠ c.z_axis)
    (hyz : c.y_axis ≠ c.z_axis)
    (hsx : c.x_length = c.shape c.x_axis) (hsy : c.y_length = c.shape c.y_axis)
    (hsz : c.z_length = c.shape c.z_axis) :
    c.x_length * c.y_length * c.z_length
      = c.shape 0 * c.shape 1 * c.shape 2 := by
  have ex : c.x_axis = 0 ∨ c.x_axis = 1 ∨ c.x_axis = 2 := by omega
  have ey : c.y_axis = 0 ∨ c.y_axis = 1 ∨ c.y_axis = 2 := by omega
  have ez : c.z_axis = 0 ∨ c.z_axis = 1 ∨ c.z_axis = 2 := by omega
  rw [hsx, hsy, hsz]
  rcases ex with h | h | h <;> rcases ey with h2 | h2 | h2 <;>
    rcases ez with h3 | h3 | h3 <;> (try omega) <;> rw [h, h2, h3] <;> ring

theorem chunk_idx_lt2 (c : t8_latlon_data_chunk_t) (i : ℕ)
    (h0 : 0 < c.shape 0) : chunk_idx c i 2 < c.shape 0 := by
  simp only [chunk_idx, if_neg (by omega : ¬ (2 : ℕ) = 0),
    if_neg (by omega : ¬ (2 : ℕ) = 1)]
  exact Nat.mod_lt _ h0

theorem chunk_idx_lt1 (c : t8_latlon_data_chunk_t) (i : ℕ)
    (h0 : 0 < c.shape 0) (h1 : 0 < c.shape 1) :
    chunk_idx c i 1 < c.shape 1 := by
  simp only [chunk_idx, if_neg (by omega : ¬ (1 : ℕ) = 0), if_pos rfl]
  have hm : i % (c.shape 0 * c.shape 1) < c.shape 0 * c.shape 1 :=
    Nat.mod_lt _ (Nat.mul_pos h0 h1)
  exact Nat.div_lt_of_lt_mul hm

theorem chunk_idx_lt0 (c : t8_latlon_data_chunk_t) (i : ℕ)
    (hi : i < c.shape 0 * c.shape 1 * c.shape 2)
    (_h01 : 0 < c.shape 0 * c.shape 1) : chunk_idx c i 0 < c.shape 2 := by
  simp only [chunk_idx, if_pos rfl]
  exact Nat.div_lt_of_lt_mul (by
    have : c.shape 2 * (c.shape 0 * c.shape 1)
        = c.shape 0 * c.shape 1 * c.shape 2 := by ring
    omega)

theorem chunk_idx_encode (c : t8_latlon_data_chunk_t) (i : ℕ) :
    chunk_idx c i 0 * (c.shape 0 * c.shape 1) + chunk_idx c i 1 * c.shape 0
      + chunk_idx c i 2 = i := by
  have h1 := Nat.div_add_mod i (c.shape 0 * c.shape 1)
  have h2 := Nat.div_add_mod (i % (c.shape 0 * c.shape 1)) (c.shape 0)
  show i / (c.shape 0 * c.shape 1) * (c.shape 0 * c.shape 1)
      + i % (c.shape 0 * c.shape 1) / c.shape 0 * c.shape 0
      + i % (c.shape 0 * c.shape 1) % c.shape 0 = i
  linarith [h1, h2]

/-- The idx-position bound: position 2 holds the innermost axis (length
    shape 0), position 1 the middle one, position 0 the outermost. -/
theorem chunk_idx_pos_bound (c : t8_latlon_data_chunk_t) (a : ℕ) (ha : a < 3)
    (h0 : 0 < c.shape 0) (h1 : 0 < c.shape 1) (m : ℕ)
    (hm : m < c.shape 0 * c.shape 1 * c.shape 2) :
    chunk_idx c m (2 - a) < c.shape a := by
  interval_cases a
  · have h : (2 : ℕ) - 0 = 2 := rfl
    rw [h]
    exact chunk_idx_lt2 c m h0
  · have h : (2 : ℕ) - 1 = 1 := rfl
    rw [h]
    exact chunk_idx_lt1 c m h0 h1
  · have h : (2 : ℕ) - 2 = 0 := rfl
    rw [h]
    exact chunk_idx_lt0 c m hm (Nat.mul_pos h0 h1)

/-- Injectivity of the data-index map of t8_messy_set_tracer_values on the
    input range, for any axis permutation. -/
theorem chunk_data_index_inj (c : t8_latlon_data_chunk_t) (k : ℕ)
    (hx3 : c.x_axis < 3) (hy3 : c.y_axis < 3) (hz3 : c.z_axis < 3)
    (hxy : c.x_axis ≠ c.y_axis) (hxz : c.x_axis ≠ c.z_axis)
    (hyz : c.y_axis ≠ c.z_axis)
    (hsx : c.x_length = c.shape c.x_axis) (hsy : c.y_length = c.shape c.y_axis)
    (hsz : c.z_length = c.shape c.z_axis)
    (hpx : 0 < c.x_length) (hpy : 0 < c.y_length) (hpz : 0 < c.z_length)
    (hT : 0 < c.num_tracers) :
    ∀ i < c.x_length * c.y_length * c.z_length,
      ∀ j < c.x_length * c.y_length * c.z_length,
        chunk_data_index c k i = chunk_data_index c k j → i = j := by
  have hcov : ∀ p, p < 3 → 0 < c.shape p := by
    intro p hp
    have hc : p = c.x_axis ∨ p = c.y_axis ∨ p = c.z_axis := by omega
    rcases hc with h | h | h
    · rw [h, ← hsx]; exact hpx
    · rw [h, ← hsy]; exact hpy
    · rw [h, ← hsz]; exact hpz
  have h0 : 0 < c.shape 0 := hcov 0 (by omega)
  have h1 : 0 < c.shape 1 := hcov 1 (by omega)
  have hsize := chunk_size_eq c hx3 hy3 hz3 hxy hxz hyz hsx hsy hsz
  intro i hi j hj h
  have hi' : i < c.shape 0 * c.shape 1 * c.shape 2 := by omega
  have hj' : j < c.shape 0 * c.shape 1 * c.shape 2 := by omega
  have hxbi : chunk_idx c i (2 - c.x_axis) < c.x_length := by
    rw [hsx]; exact chunk_idx_pos_bound c c.x_axis hx3 h0 h1 i hi'
  have hxbj : chunk_idx c j (2 - c.x_axis) < c.x_length := by
    rw [hsx]; exact chunk_idx_pos_bound c c.x_axis hx3 h0 h1 j hj'
  have hybi : chunk_idx c i (2 - c.y_axis) < c.y_length := by
    rw [hsy]; exact chunk_idx_pos_bound c c.y_axis hy3 h0 h1 i hi'
  have hybj : chunk_idx c j (2 - c.y_axis) < c.y_length := by
    rw [hsy]; exact chunk_idx_pos_bound c c.y_axis hy3 h0 h1 j hj'
  have hzbi : chunk_idx c i (2 - c.z_axis) < c.z_length := by
    rw [hsz]; exact chunk_idx_pos_bound c c.z_axis hz3 h0 h1 i hi'
  have hzbj : chunk_idx c j (2 - c.z_axis) < c.z_length := by
    rw [hsz]; exact chunk_idx_pos_bound c c.z_axis hz3 h0 h1 j hj'
  simp only [chunk_data_index] at h
  have hM : (c.y_length - 1 - chunk_idx c i (2 - c.y_axis))
        * (c.z_length * c.x_length)
        + chunk_idx c i (2 - c.x_axis) * c.z_length
        + chunk_idx c i (2 - c.z_axis)
      = (c.y_length - 1 - chunk_idx c j (2 - c.y_axis))
        * (c.z_length * c.x_length)
        + chunk_idx c j (2 - c.x_axis) * c.z_length
        + chunk_idx c j (2 - c.z_axis) := by
    have hstrip : ((c.y_length - 1 - chunk_idx c i (2 - c.y_axis))
          * c.z_length * c.x_length
          + chunk_idx c i (2 - c.x_axis) * c.z_length
          + chunk_idx c i (2 - c.z_axis))
        = ((c.y_length - 1 - chunk_idx c j (2 - c.y_axis))
          * c.z_length * c.x_length
          + chunk_idx c j (2 - c.x_axis) * c.z_length
          + chunk_idx c j (2 - c.z_axis)) :=
      Nat.eq_of_mul_eq_mul_right hT (by omega)
    calc (c.y_length - 1 - chunk_idx c i (2 - c.y_axis))
          * (c.z_length * c.x_length)
          + chunk_idx c i (2 - c.x_axis) * c.z_length
          + chunk_idx c i (2 - c.z_axis)
        = (c.y_length - 1 - chunk_idx c i (2 - c.y_axis))
          * c.z_length * c.x_length
          + chunk_idx c i (2 - c.x_axis) * c.z_length
          + chunk_idx c i (2 - c.z_axis) := by ring
      _ = (c.y_length - 1 - chunk_idx c j (2 - c.y_axis))
          * c.z_length * c.x_length
          + chunk_idx c j (2 - c.x_axis) * c.z_length
          + chunk_idx c j (2 - c.z_axis) := hstrip
      _ = (c.y_length - 1 - chunk_idx c j (2 - c.y_axis))
          * (c.z_length * c.x_length)
          + chunk_idx c j (2 - c.x_axis) * c.z_length
          + chunk_idx c j (2 - c.z_axis) := by ring
  have hz_eq : chunk_idx c i (2 - c.z_axis) = chunk_idx c j (2 - c.z_axis) := by
    have d1 := decode3_low (c.y_length - 1 - chunk_idx c i (2 - c.y_axis))
      (chunk_idx c i (2 - c.x_axis)) (chunk_idx c i (2 - c.z_axis))
      c.z_length c.x_length hxbi hzbi
    have d2 := decode3_low (c.y_length - 1 - chunk_idx c j (2 - c.y_axis))
      (chunk_idx c j (2 - c.x_axis)) (chunk_idx c j (2 - c.z_axis))
      c.z_length c.x_length hxbj hzbj
    rw [← d1, ← d2, hM]
  have hx_eq : chunk_idx c i (2 - c.x_axis) = chunk_idx c j (2 - c.x_axis) := by
    have d1 := decode3_mid (c.y_length - 1 - chunk_idx c i (2 - c.y_axis))
      (chunk_idx c i (2 - c.x_axis)) (chunk_idx c i (2 - c.z_axis))
      c.z_length c.x_length hxbi hzbi
    have d2 := decode3_mid (c.y_length - 1 - chunk_idx c j (2 - c.y_axis))
      (chunk_idx c j (2 - c.x_axis)) (chunk_idx c j (2 - c.z_axis))
      c.z_length c.x_length hxbj hzbj
    rw [← d1, ← d2, hM]
  have hy_eq : chunk_idx c i (2 - c.y_axis) = chunk_idx c j (2 - c.y_axis) := by
    have d1 := decode3_div (c.y_length - 1 - chunk_idx c i (2 - c.y_axis))
      (chunk_idx c i (2 - c.x_axis)) (chunk_idx c i (2 - c.z_axis))
      c.z_length c.x_length hxbi hzbi
    have d2 := decode3_div (c.y_length - 1 - chunk_idx c j (2 - c.y_axis))
      (chunk_idx c j (2 - c.x_axis)) (chunk_idx c j (2 - c.z_axis))
      c.z_length c.x_length hxbj hzbj
    have hflip : c.y_length - 1 - chunk_idx c i (2 - c.y_axis)
        = c.y_length - 1 - chunk_idx c j (2 - c.y_axis) := by
      rw [← d1, ← d2, hM]
    omega
  have hall : ∀ p, p < 3 → chunk_idx c i p = chunk_idx c j p := by
    intro p hp
    have hc : p = 2 - c.x_axis ∨ p = 2 - c.y_axis ∨ p = 2 - c.z_axis := by
      omega
    rcases hc with h' | h' | h'
    · rw [h']; exact hx_eq
    · rw [h']; exact hy_eq
    · rw [h']; exact hz_eq
  calc i = chunk_idx c i 0 * (c.shape 0 * c.shape 1)
        + chunk_idx c i 1 * c.shape 0 + chunk_idx c i 2 :=
      (chunk_idx_encode c i).symm
    _ = chunk_idx c j 0 * (c.shape 0 * c.shape 1)
        + chunk_idx c j 1 * c.shape 0 + chunk_idx c j 2 := by
      rw [hall 0 (by omega), hall 1 (by omega), hall 2 (by omega)]
    _ = j := chunk_idx_encode c j

/-- C9: for every axis permutation and every input buffer, the loop of
    t8_messy_set_tracer_values stores the scalar at logical input
    coordinates (ix, iy, iz) for tracer index k at DENSE offset
    ((y * z_length * x_length + x * z_length + z) * num_tracers) + k, where
    the internal row is y = y_length - 1 - iy (input row 0 is the top
    row). -/
theorem set_tracer_values_offset (c : t8_latlon_data_chunk_t) (k : ℕ)
    (input : ℕ → ℚ)
    (hx3 : c.x_axis < 3) (hy3 : c.y_axis < 3) (hz3 : c.z_axis < 3)
    (hxy : c.x_axis ≠ c.y_axis) (hxz : c.x_axis ≠ c.z_axis)
    (hyz : c.y_axis ≠ c.z_axis)
    (hsx : c.x_length = c.shape c.x_axis) (hsy : c.y_length = c.shape c.y_axis)
    (hsz : c.z_length = c.shape c.z_axis)
    (hT : 0 < c.num_tracers)
    (ix iy iz : ℕ) (hix : ix < c.x_length) (hiy : iy < c.y_length)
    (hiz : iz < c.z_length) :
    (t8_messy_set_tracer_values c k input).data
        (((c.y_length - 1 - iy) * c.z_length * c.x_length + ix * c.z_length
            + iz) * c.num_tracers + k)
      = input (chunk_input_index c ix iy iz) := by
  have hpx : 0 < c.x_length := by omega
  have hpy : 0 < c.y_length := by omega
  have hpz : 0 < c.z_length := by omega
  have hcov : ∀ p, p < 3 → 0 < c.shape p := by
    intro p hp
    have hc : p = c.x_axis ∨ p = c.y_axis ∨ p = c.z_axis := by omega
    rcases hc with h | h | h
    · rw [h, ← hsx]; exact hpx
    · rw [h, ← hsy]; exact hpy
    · rw [h, ← hsz]; exact hpz
  have h0 : 0 < c.shape 0 := hcov 0 (by omega)
  have h1 : 0 < c.shape 1 := hcov 1 (by omega)
  have hsize := chunk_size_eq c hx3 hy3 hz3 hxy hxz hyz hsx hsy hsz
  have hfx : chunk_input_idx c (2 - c.x_axis) ix iy iz = ix := by
    unfold chunk_input_idx
    rw [if_pos rfl]
  have hfy : chunk_input_idx c (2 - c.y_axis) ix iy iz = iy := by
    unfold chunk_input_idx
    rw [if_neg (by omega), if_pos rfl]
  have hfz : chunk_input_idx c (2 - c.z_axis) ix iy iz = iz := by
    unfold chunk_input_idx
    rw [if_neg (by omega), if_neg (by omega)]
  have hfb : ∀ p, p < 3 → chunk_input_idx c p ix iy iz < c.shape (2 - p) := by
    intro p hp
    have hc : p = 2 - c.x_axis ∨ p = 2 - c.y_axis ∨ p = 2 - c.z_axis := by
      omega
    rcases hc with h' | h' | h'
    · rw [h', hfx, show 2 - (2 - c.x_axis) = c.x_axis by omega, ← hsx]
      exact hix
    · rw [h', hfy, show 2 - (2 - c.y_axis) = c.y_axis by omega, ← hsy]
      exact hiy
    · rw [h', hfz, show 2 - (2 - c.z_axis) = c.z_axis by omega, ← hsz]
      exact hiz
  have hb0 : chunk_input_idx c 0 ix iy iz < c.shape 2 := by
    have := hfb 0 (by omega)
    rwa [show (2 : ℕ) - 0 = 2 from rfl] at this
  have hb1 : chunk_input_idx c 1 ix iy iz < c.shape 1 := by
    have := hfb 1 (by omega)
    rwa [show (2 : ℕ) - 1 = 1 from rfl] at this
  have hb2 : chunk_input_idx c 2 ix iy iz < c.shape 0 := by
    have := hfb 2 (by omega)
    rwa [show (2 : ℕ) - 2 = 0 from rfl] at this
  have hIlt : chunk_input_index c ix iy iz
      < c.x_length * c.y_length * c.z_length := by
    rw [hsize]
    exact encode3_lt _ _ _ _ _ _ hb0 hb1 hb2
  have hd0 : chunk_idx c (chunk_input_index c ix iy iz) 0
      = chunk_input_idx c 0 ix iy iz := by
    show (chunk_input_index c ix iy iz) / (c.shape 0 * c.shape 1)
      = chunk_input_idx c 0 ix iy iz
    exact decode3_div _ _ _ _ _ hb1 hb2
  have hd1 : chunk_idx c (chunk_input_index c ix iy iz) 1
      = chunk_input_idx c 1 ix iy iz := by
    show ((chunk_input_index c ix iy iz) % (c.shape 0 * c.shape 1)) / c.shape 0
      = chunk_input_idx c 1 ix iy iz
    exact decode3_mid _ _ _ _ _ hb1 hb2
  have hd2 : chunk_idx c (chunk_input_index c ix iy iz) 2
      = chunk_input_idx c 2 ix iy iz := by
    show ((chunk_input_index c ix iy iz) % (c.shape 0 * c.shape 1)) % c.shape 0
      = chunk_input_idx c 2 ix iy iz
    exact decode3_low _ _ _ _ _ hb1 hb2
  have hex : chunk_idx c (chunk_input_index c ix iy iz) (2 - c.x_axis)
      = ix := by
    have hc : 2 - c.x_axis = 0 ∨ 2 - c.x_axis = 1 ∨ 2 - c.x_axis = 2 := by
      omega
    rcases hc with h' | h' | h'
    · rw [h'] at hfx ⊢; rw [hd0]; exact hfx
    · rw [h'] at hfx ⊢; rw [hd1]; exact hfx
    · rw [h'] at hfx ⊢; rw [hd2]; exact hfx
  have hey : chunk_idx c (chunk_input_index c ix iy iz) (2 - c.y_axis)
      = iy := by
    have hc : 2 - c.y_axis = 0 ∨ 2 - c.y_axis = 1 ∨ 2 - c.y_axis = 2 := by
      omega
    rcases hc with h' | h' | h'
    · rw [h'] at hfy ⊢; rw [hd0]; exact hfy
    · rw [h'] at hfy ⊢; rw [hd1]; exact hfy
    · rw [h'] at hfy ⊢; rw [hd2]; exact hfy
  have hez : chunk_idx c (chunk_input_index c ix iy iz) (2 - c.z_axis)
      = iz := by
    have hc : 2 - c.z_axis = 0 ∨ 2 - c.z_axis = 1 ∨ 2 - c.z_axis = 2 := by
      omega
    rcases hc with h' | h' | h'
    · rw [h'] at hfz ⊢; rw [hd0]; exact hfz
    · rw [h'] at hfz ⊢; rw [hd1]; exact hfz
    · rw [h'] at hfz ⊢; rw [hd2]; exact hfz
  have hoff : chunk_data_index c k (chunk_input_index c ix iy iz)
      = ((c.y_length - 1 - iy) * c.z_length * c.x_length + ix * c.z_length
          + iz) * c.num_tracers + k := by
    simp only [chunk_data_index]
    rw [hex, hey, hez]
  rw [← hoff]
  simp only [t8_messy_set_tracer_values]
  exact foldl_upd_range_at (c.x_length * c.y_length * c.z_length)
    (chunk_data_index c k) input
    (chunk_data_index_inj c k hx3 hy3 hz3 hxy hxz hyz hsx hsy hsz hpx hpy
      hpz hT)
    c.data (chunk_input_index c ix iy iz) hIlt

/-- C10: a call that writes tracer index k touches only data offsets
    congruent to k modulo num_tracers — every other tracer's values are
    unchanged — and leaves the chunk metadata (lengths, shape, axis indices,
    tracer count, numbering) unchanged. -/
theorem set_tracer_values_frame (c : t8_latlon_data_chunk_t) (k : ℕ)
    (input : ℕ → ℚ) (hk : k < c.num_tracers) :
    (∀ o, o % c.num_tracers ≠ k →
      (t8_messy_set_tracer_values c k input).data o = c.data o) ∧
    (t8_messy_set_tracer_values c k input).x_length = c.x_length ∧
    (t8_messy_set_tracer_values c k input).y_length = c.y_length ∧
    (t8_messy_set_tracer_values c k input).z_length = c.z_length ∧
    (t8_messy_set_tracer_values c k input).shape = c.shape ∧
    (t8_messy_set_tracer_values c k input).x_axis = c.x_axis ∧
    (t8_messy_set_tracer_values c k input).y_axis = c.y_axis ∧
    (t8_messy_set_tracer_values c k input).z_axis = c.z_axis ∧
    (t8_messy_set_tracer_values c k input).num_tracers = c.num_tracers ∧
    (t8_messy_set_tracer_values c k input).numbering = c.numbering := by
  refine ⟨?_, rfl, rfl, rfl, rfl, rfl, rfl, rfl, rfl, rfl⟩
  intro o ho
  simp only [t8_messy_set_tracer_values]
  apply foldl_upd_notin
  intro i _ he
  apply ho
  rw [he]
  have hmod : ∀ M : ℕ, (M * c.num_tracers + k) % c.num_tracers = k := by
    intro M
    rw [Nat.mul_comm, Nat.mul_add_mod]
    exact Nat.mod_eq_of_lt hk
  simp only [chunk_data_index]
  exact hmod _

/-- C9 witness. -/
theorem set_tracer_values_offset_witness :
    (0 : ℕ) < chunk_c9.num_tracers ∧ (1 : ℕ) < chunk_c9.x_length ∧
    (t8_messy_set_tracer_values chunk_c9 0 input_c9).data
        (((chunk_c9.y_length - 1 - 0) * chunk_c9.z_length * chunk_c9.x_length
            + 1 * chunk_c9.z_length + 0) * chunk_c9.num_tracers + 0)
      = input_c9 (chunk_input_index chunk_c9 1 0 0) :=
  ⟨by decide, by decide,
    set_tracer_values_offset chunk_c9 0 input_c9 (by decide) (by decide)
      (by decide) (by decide) (by decide) (by decide) (by decide) (by decide)
      (by decide) (by decide) 1 0 0 (by decide) (by decide) (by decide)⟩

/-- C10 witness. -/
theorem set_tracer_values_frame_witness :
    (0 : ℕ) < chunk_c10.num_tracers ∧
    ((∀ o, o % chunk_c10.num_tracers ≠ 0 →
      (t8_messy_set_tracer_values chunk_c10 0 input_c9).data o
        = chunk_c10.data o) ∧
    (t8_messy_set_tracer_values chunk_c10 0 input_c9).x_length
        = chunk_c10.x_length ∧
    (t8_messy_set_tracer_values chunk_c10 0 input_c9).y_length
        = chunk_c10.y_length ∧
    (t8_messy_set_tracer_values chunk_c10 0 input_c9).z_length
        = chunk_c10.z_length ∧
    (t8_messy_set_tracer_values chunk_c10 0 input_c9).shape
        = chunk_c10.shape ∧
    (t8_messy_set_tracer_values chunk_c10 0 input_c9).x_axis
        = chunk_c10.x_axis ∧
    (t8_messy_set_tracer_values chunk_c10 0 input_c9).y_axis
        = chunk_c10.y_axis ∧
    (t8_messy_set_tracer_values chunk_c10 0 input_c9).z_axis
        = chunk_c10.z_axis ∧
    (t8_messy_set_tracer_values chunk_c10 0 input_c9).num_tracers
        = chunk_c10.num_tracers ∧
    (t8_messy_set_tracer_values chunk_c10 0 input_c9).numbering
        = chunk_c10.numbering) :=
  ⟨by decide, set_tracer_values_frame chunk_c10 0 input_c9 (by decide)⟩
